import Mathlib

/-!
Verification of the admission-control layer of the vendor-registration
backend: the custom submission rate limiter (IP- and email-keyed windowed
counters with punitive blocking and LRU eviction), the tracker cleanup and
debugging snapshot, and the duplicate-submission detector over the
in-memory submission history.

Timestamps are modelled as `Int` (JavaScript `Date.now()` milliseconds);
the JavaScript `Map` objects are modelled as insertion-ordered association
lists, with `Map.set` replacing in place or appending, and `Map.delete`
removing the entry with the given key.
-/

namespace VendorReg

/-- The `SubmissionTracker` record of the rate-limiter middleware. -/
structure SubmissionTracker where
  count : Nat
  firstSubmission : Int
  lastSubmission : Int
  blockedUntil : Option Int := none
deriving DecidableEq, Repr

/-- A JavaScript `Map<κ, SubmissionTracker>` as an insertion-ordered
association list.  Keys are unique in every map the program builds. -/
abbrev TMap (κ : Type) := List (κ × SubmissionTracker)

/-- Model of `Map.get`. -/
def lookupT {κ : Type} [DecidableEq κ] : TMap κ → κ → Option SubmissionTracker
  | [], _ => none
  | (k', v) :: rest, k => if k' = k then some v else lookupT rest k

/-- Model of `Map.set`: replace in place if the key is present, else append. -/
def setT {κ : Type} [DecidableEq κ] : TMap κ → κ → SubmissionTracker → TMap κ
  | [], k, v => [(k, v)]
  | (k', v') :: rest, k, v =>
    if k' = k then (k, v) :: rest else (k', v') :: setT rest k v

/-- Model of `Map.delete`: remove the entry with the given key. -/
def delT {κ : Type} [DecidableEq κ] : TMap κ → κ → TMap κ
  | [], _ => []
  | (k', v) :: rest, k => if k' = k then rest else (k', v) :: delT rest k

def keysOf {κ : Type} (m : TMap κ) : List κ := m.map Prod.fst

abbrev KeysNodup {κ : Type} (m : TMap κ) : Prop := (keysOf m).Nodup

/-- Comparator of the eviction sort: ascending `lastSubmission`. -/
def trackerLe {κ : Type} (a b : κ × SubmissionTracker) : Prop :=
  a.2.lastSubmission ≤ b.2.lastSubmission

instance {κ : Type} : DecidableRel (@trackerLe κ) :=
  fun a b => Int.decLe a.2.lastSubmission b.2.lastSubmission

instance {κ : Type} : IsTotal (κ × SubmissionTracker) trackerLe :=
  ⟨fun a b => Int.le_total a.2.lastSubmission b.2.lastSubmission⟩

instance {κ : Type} : IsTrans (κ × SubmissionTracker) trackerLe :=
  ⟨fun _ _ _ hab hbc => le_trans hab hbc⟩

/-- Model of `entries.sort((a, b) => a[1].lastSubmission - b[1].lastSubmission)`:
a stable ascending sort by `lastSubmission`. -/
def sortByLast {κ : Type} (m : TMap κ) : TMap κ := m.insertionSort trackerLe

def MAX_TRACKER_ENTRIES : Nat := 10000

/-- Value of `Math.floor(MAX_TRACKER_ENTRIES * 0.2)`. -/
def evictCount : Nat := MAX_TRACKER_ENTRIES * 2 / 10

/-- Model of `toRemove.forEach(([k]) => map.delete(k))`: since keys are unique in a
JavaScript `Map`, deleting each key of `ks` keeps exactly the entries whose
key is not in `ks`, in order. -/
def deleteKeys {κ : Type} [DecidableEq κ] (ks : List κ) (m : TMap κ) : TMap κ :=
  m.filter (fun p => decide (p.1 ∉ ks))

/-- One tracker's half of `enforceTrackerLimits`. -/
def enforceLimit {κ : Type} [DecidableEq κ] (m : TMap κ) : TMap κ :=
  if m.length > MAX_TRACKER_ENTRIES then
    deleteKeys (((sortByLast m).take evictCount).map Prod.fst) m
  else m

/-- The two module-level tracker maps of the middleware. -/
structure RLState where
  ip : TMap String
  email : TMap String
deriving DecidableEq, Repr

def enforceTrackerLimits (s : RLState) : RLState :=
  ⟨enforceLimit s.ip, enforceLimit s.email⟩

/-- Outcome of the vendor-submission rate limiter: either an HTTP rejection
(status code, `error` field, numeric retry hint — `blockTimeLeft` in
minutes or `hoursLeft` in hours) or fall-through to the handler. -/
inductive RLResult where
  | rejected (status : Nat) (error : String) (hint : Int)
  | allowed
deriving DecidableEq, Repr

def IP_WINDOW : Int := 60 * 60 * 1000
def IP_MAX_ATTEMPTS : Nat := 3
def EMAIL_WINDOW : Int := 24 * 60 * 60 * 1000
def BLOCK_DURATION : Int := 60 * 60 * 1000

/-- Model of `Math.ceil(x / d)` for the nonnegative quotients the middleware takes. -/
def ceilDiv (x d : Int) : Int := (x + d - 1) / d

/-- Window/count part of the IP check, reached when no active block. -/
def ipWindowCheck (ip : String) (now : Int) (m : TMap String)
    (t : SubmissionTracker) : Option RLResult × TMap String :=
  if now - t.firstSubmission > IP_WINDOW then
    (none, delT m ip)
  else if t.count ≥ IP_MAX_ATTEMPTS then
    (some (.rejected 429 "IP_RATE_LIMIT_EXCEEDED" (ceilDiv BLOCK_DURATION 60000)),
      setT m ip { t with blockedUntil := some (now + BLOCK_DURATION) })
  else (none, m)

/-- The IP-based rate-limiting check of `vendorSubmissionRateLimiter`. -/
def ipPhaseCheck (ip : String) (now : Int) (m : TMap String) :
    Option RLResult × TMap String :=
  match lookupT m ip with
  | none => (none, m)
  | some t =>
    match t.blockedUntil with
    | some b =>
      if now < b then
        (some (.rejected 429 "IP_BLOCKED" (ceilDiv (b - now) 60000)), m)
      else ipWindowCheck ip now m t
    | none => ipWindowCheck ip now m t

/-- The email-based rate-limiting check of `vendorSubmissionRateLimiter`. -/
def emailPhaseCheck (e : String) (now : Int) (m : TMap String) :
    Option RLResult × TMap String :=
  match lookupT m e with
  | none => (none, m)
  | some t =>
    if now - t.firstSubmission < EMAIL_WINDOW then
      (some (.rejected 409 "DUPLICATE_EMAIL"
        (ceilDiv (EMAIL_WINDOW - (now - t.firstSubmission)) 3600000)), m)
    else (none, delT m e)

/-- The "Update trackers" tail of `vendorSubmissionRateLimiter`, run only
when both checks fell through. -/
def updateTrackers (ip : String) (ek : Option String) (now : Int)
    (s : RLState) : RLState :=
  let t0 := (lookupT s.ip ip).getD ⟨0, now, now, none⟩
  let t1 : SubmissionTracker :=
    { t0 with count := t0.count + 1, lastSubmission := now }
  let t2 := if t1.count = 1 then { t1 with firstSubmission := now } else t1
  ⟨setT s.ip ip t2,
    match ek with
    | some e => setT s.email e ⟨1, now, now, none⟩
    | none => s.email⟩

/-- Model of `toLowerCase()`, character-wise (ASCII case folding). -/
def jsToLower (s : String) : String := ⟨s.data.map Char.toLower⟩

/-- Model of `req.body.email?.toLowerCase()` followed by the truthiness test
`if (email)`: absent or empty email yields no identity key. -/
def emailKeyOf (email : Option String) : Option String :=
  match email with
  | some e => if jsToLower e = "" then none else some (jsToLower e)
  | none => none

/-- The custom vendor-submission rate limiter, as a pure transition on the
two tracker maps: enforce memory limits, run the IP check, run the email
check, and only if both fall through commit this attempt to both trackers. -/
def vendorSubmissionRateLimiter (ip : String) (email : Option String)
    (now : Int) (s : RLState) : RLResult × RLState :=
  let ek := emailKeyOf email
  let s1 := enforceTrackerLimits s
  match ipPhaseCheck ip now s1.ip with
  | (some r, m) => (r, ⟨m, s1.email⟩)
  | (none, m) =>
    match ek with
    | some e =>
      match emailPhaseCheck e now s1.email with
      | (some r, em) => (r, ⟨m, em⟩)
      | (none, em) => (.allowed, updateTrackers ip (some e) now ⟨m, em⟩)
    | none => (.allowed, updateTrackers ip none now ⟨m, s1.email⟩)

def windowExpiredB (now w : Int) (t : SubmissionTracker) : Bool :=
  decide (now - t.firstSubmission > w)

def blockExpiredB (now : Int) (t : SubmissionTracker) : Bool :=
  match t.blockedUntil with
  | none => true
  | some b => decide (now > b)

/-- Model of `cleanupTrackers`: drop IP entries whose window expired and whose block
(if any) expired; drop email entries whose window expired. -/
def cleanupTrackers (now : Int) (s : RLState) : RLState :=
  ⟨s.ip.filter (fun p => !(windowExpiredB now IP_WINDOW p.2 && blockExpiredB now p.2)),
    s.email.filter (fun p => !(windowExpiredB now EMAIL_WINDOW p.2))⟩

/-- UTF-16 code units of one character (JavaScript strings are sequences
of UTF-16 code units; astral characters become a surrogate pair). -/
def utf16Units (c : Char) : List Nat :=
  let n := c.toNat
  if n < 65536 then [n]
  else [55296 + (n - 65536) / 1024, 56320 + (n - 65536) % 1024]

/-- The UTF-16 code-unit sequence of a string, the form JavaScript string
operations (including regexes without the `u` flag) actually work on. -/
def jsUnits (s : String) : List Nat := s.data.flatMap utf16Units

/-- Line terminators, which `.` in a JavaScript regex does NOT match:
LF (10), CR (13), LINE SEPARATOR (8232), PARAGRAPH SEPARATOR (8233). -/
def isLineTermUnit (u : Nat) : Bool :=
  u = 10 || u = 13 || u = 8232 || u = 8233

/-- Index (from the front) of the last `@` (code unit 64). -/
def lastAtUnit (us : List Nat) : Option Nat :=
  match us.reverse.findIdx? (fun u => u = 64) with
  | some j => some (us.length - 1 - j)
  | none => none

/-- Whether the regex `(.{3}).*(@.*)` matches at the start of a
line-terminator-free run: it does exactly when the run's last `@` sits at
index at least 3, and the greedy `.*` then puts group 2 at that `@`. -/
def runMaskIdx (run : List Nat) : Option Nat :=
  match lastAtUnit run with
  | some j => if 3 ≤ j then some j else none
  | none => none

/-- The three `*` code units of the replacement `$1***$2`. -/
def starsUnits : List Nat := [42, 42, 42]

/-- The run recursion behind `email.replace(/(.{3}).*(@.*)/, '$1***$2')`.
`.` never matches a line terminator, so a match lies inside one
terminator-free run; if a run's start admits no match (no `@` at offset
at least 3 within the run) then no later start inside that run does
either, so the leftmost match sits at the start of the first run whose
last `@` is at offset at least 3.  Greediness puts group 2 at that last
`@` and extends the match to the run's end; `replace` keeps everything
before and after the match verbatim.  The fuel argument (always called
with more fuel than units) only makes the recursion structural. -/
def maskUnitsGo : Nat → List Nat → List Nat
  | 0, us => us
  | fuel + 1, us =>
    match runMaskIdx (us.takeWhile (fun u => !(isLineTermUnit u))) with
    | some j =>
      (us.takeWhile (fun u => !(isLineTermUnit u))).take 3 ++ starsUnits ++
        (us.takeWhile (fun u => !(isLineTermUnit u))).drop j ++
        us.drop (us.takeWhile (fun u => !(isLineTermUnit u))).length
    | none =>
      match us.drop (us.takeWhile (fun u => !(isLineTermUnit u))).length with
      | [] => us.takeWhile (fun u => !(isLineTermUnit u))
      | t :: rest2 =>
        us.takeWhile (fun u => !(isLineTermUnit u)) ++ t :: maskUnitsGo fuel rest2

def maskUnits (us : List Nat) : List Nat := maskUnitsGo (us.length + 1) us

/-- Model of `email.replace(/(.{3}).*(@.*)/, '$1***$2')`, as the UTF-16
code units of the result (the match can split a surrogate pair, so the
result is kept as a unit sequence).  When the regex matches nowhere, the
string is returned unchanged. -/
def maskEmail (s : String) : List Nat := maskUnits (jsUnits s)

/-- Shape of the object returned by `getTrackerStatus` (the ISO timestamp
string is modelled by the underlying `firstSubmission` value; the masked
emails are UTF-16 code-unit sequences). -/
structure TrackerStatus where
  ipTrackers : Nat
  emailTrackers : Nat
  ipEntries : List (String × Nat × Bool)
  emailEntries : List (List Nat × Int)
deriving DecidableEq, Repr

/-- Model of `getTrackerStatus`, a read-only snapshot of the two tracker maps. -/
def getTrackerStatus (now : Int) (s : RLState) : TrackerStatus :=
  { ipTrackers := s.ip.length
    emailTrackers := s.email.length
    ipEntries := s.ip.map (fun p =>
      (p.1, p.2.count,
        match p.2.blockedUntil with
        | some b => decide (b > now)
        | none => false))
    emailEntries := s.email.map (fun p => (maskEmail p.1, p.2.firstSubmission)) }

/-! ### Duplicate-submission detection (vendorController) -/

/-- The identity-bearing fields of `VendorFormData` that the duplicate
detector reads. -/
structure VendorFormDataCore where
  email : String
  companyName : String
  contactNo : String
deriving DecidableEq, Repr

/-- An element of `vendorSubmissionsStore`. -/
structure StoredSubmission where
  data : VendorFormDataCore
  timestamp : Int
  ip : String
  id : String
  fingerprint : String
deriving DecidableEq, Repr

def base64Chars : String :=
  "ABCDEFGHIJKLMNOPQRSTUVWXYZabcdefghijklmnopqrstuvwxyz0123456789+/"

def b64c (n : Nat) : Char := base64Chars.data.getD n 'A'

/-- Standard base64 of a byte list (bytes as `Nat` values below 256). -/
def base64Encode : List Nat → List Char
  | b0 :: b1 :: b2 :: rest =>
    b64c (b0 / 4) :: b64c ((b0 % 4) * 16 + b1 / 16) ::
      b64c ((b1 % 16) * 4 + b2 / 64) :: b64c (b2 % 64) :: base64Encode rest
  | [b0, b1] => [b64c (b0 / 4), b64c ((b0 % 4) * 16 + b1 / 16), b64c ((b1 % 16) * 4), '=']
  | [b0] => [b64c (b0 / 4), b64c ((b0 % 4) * 16), '=', '=']
  | [] => []

/-- UTF-8 bytes of a character, as `Nat` values. -/
def utf8Bytes (c : Char) : List Nat :=
  let n := c.toNat
  if n < 128 then [n]
  else if n < 2048 then [192 + n / 64, 128 + n % 64]
  else if n < 65536 then [224 + n / 4096, 128 + (n / 64) % 64, 128 + n % 64]
  else [240 + n / 262144, 128 + (n / 4096) % 64, 128 + (n / 64) % 64, 128 + n % 64]

/-- Model of `Buffer.from(s).toString('base64')`. -/
def jsBase64 (s : String) : String := ⟨base64Encode (s.data.flatMap utf8Bytes)⟩

/-- Model of `generateFingerprint`: base64 of
`email.toLowerCase()-companyName.toLowerCase()-contactNo-ip`. -/
def generateFingerprint (d : VendorFormDataCore) (ip : String) : String :=
  jsBase64 (jsToLower d.email ++ "-" ++ jsToLower d.companyName ++ "-" ++
    d.contactNo ++ "-" ++ ip)

def DUPLICATE_WINDOW : Int := 24 * 60 * 60 * 1000

/-- The four duplicate criteria applied to one history record, in the
code's order, returning the first reason that fires. -/
def recordReason (d : VendorFormDataCore) (ip fp : String)
    (s : StoredSubmission) : Option String :=
  if jsToLower s.data.email = jsToLower d.email then some "DUPLICATE_EMAIL"
  else if s.data.contactNo = d.contactNo ∧
      jsToLower s.data.companyName = jsToLower d.companyName then
    some "DUPLICATE_PHONE_COMPANY"
  else if s.ip = ip ∧ jsToLower s.data.companyName = jsToLower d.companyName then
    some "DUPLICATE_IP_COMPANY"
  else if s.fingerprint = fp then some "DUPLICATE_FINGERPRINT"
  else none

/-- The scan loop of `isDuplicateSubmission`: history order, skipping
records older than the 24-hour window, returning on the first record that
satisfies any criterion. -/
def findDuplicate (d : VendorFormDataCore) (ip fp : String) (now : Int) :
    List StoredSubmission → Option (String × StoredSubmission)
  | [] => none
  | s :: rest =>
    if now - s.timestamp > DUPLICATE_WINDOW then findDuplicate d ip fp now rest
    else
      match recordReason d ip fp s with
      | some r => some (r, s)
      | none => findDuplicate d ip fp now rest

/-- Model of `isDuplicateSubmission`: `none` models `{isDuplicate: false}`, and
`some (reason, s)` models `{isDuplicate: true, reason, existingSubmission: s}`. -/
def isDuplicateSubmission (d : VendorFormDataCore) (ip : String) (now : Int)
    (store : List StoredSubmission) : Option (String × StoredSubmission) :=
  findDuplicate d ip (generateFingerprint d ip) now store

/-- The duplicate lookup as the spec words it: find the first record whose
timestamp is within the window and which satisfies any of the four
predicates, and report that record with the highest-priority reason it
satisfies. -/
def findDuplicateSpec (d : VendorFormDataCore) (ip fp : String) (now : Int)
    (store : List StoredSubmission) : Option (String × StoredSubmission) :=
  match store.find? (fun s =>
      decide (now - s.timestamp ≤ DUPLICATE_WINDOW) &&
        (recordReason d ip fp s).isSome) with
  | some s => (recordReason d ip fp s).map (fun r => (r, s))
  | none => none

def RETENTION_PERIOD : Int := 30 * 24 * 60 * 60 * 1000

/-- Model of `cleanupOldSubmissions`: the backwards splice loop removes exactly the
records older than the 30-day retention period, keeping history order. -/
def cleanupOldSubmissions (now : Int) (store : List StoredSubmission) :
    List StoredSubmission :=
  store.filter (fun s => !(decide (now - s.timestamp > RETENTION_PERIOD)))

/-- Shape of the object returned by `getSubmissionStats` (ISO strings
modelled by the underlying timestamps). -/
structure SubmissionStats where
  total : Nat
  last24Hours : Nat
  last7Days : Nat
  oldestSubmission : Option Int
  newestSubmission : Option Int
deriving DecidableEq, Repr

/-- Model of `getSubmissionStats`, a read-only aggregate over the history. -/
def getSubmissionStats (now : Int) (store : List StoredSubmission) :
    SubmissionStats :=
  { total := store.length
    last24Hours := (store.filter (fun s => decide (now - s.timestamp < DUPLICATE_WINDOW))).length
    last7Days := (store.filter (fun s => decide (now - s.timestamp < 7 * 24 * 60 * 60 * 1000))).length
    oldestSubmission := (store.map (fun s => s.timestamp)).min?
    newestSubmission := (store.map (fun s => s.timestamp)).max? }

/-! ### Reachable middleware states

The module starts with two empty maps; the only writers are
`vendorSubmissionRateLimiter` (per request) and the periodic
`cleanupTrackers`, with a monotone clock. -/

inductive Reachable : RLState → Int → Prop where
  | init (t : Int) : Reachable ⟨[], []⟩ t
  | step {s : RLState} {t : Int} (ip : String) (email : Option String)
      {now : Int} : Reachable s t → t ≤ now →
      Reachable (vendorSubmissionRateLimiter ip email now s).2 now
  | sweep {s : RLState} {t now : Int} : Reachable s t → t ≤ now →
      Reachable (cleanupTrackers now s) now

/-! ### Association-list lemmas -/

section MapLemmas

variable {κ : Type} [DecidableEq κ]

theorem lookupT_setT_self (m : TMap κ) (k : κ) (v : SubmissionTracker) :
    lookupT (setT m k v) k = some v := by
  induction m with
  | nil => simp [setT, lookupT]
  | cons p rest ih =>
    by_cases h : p.1 = k
    · simp [setT, h, lookupT]
    · simp [setT, h, lookupT, ih]

theorem lookupT_eq_none_iff (m : TMap κ) (k : κ) :
    lookupT m k = none ↔ k ∉ keysOf m := by
  induction m with
  | nil => simp [lookupT, keysOf]
  | cons p rest ih =>
    rcases p with ⟨k', v'⟩
    show (if k' = k then some v' else lookupT rest k) = none ↔
      k ∉ k' :: keysOf rest
    by_cases h : k' = k
    · subst h
      simp
    · rw [if_neg h, ih, List.mem_cons]
      constructor
      · intro hn hor
        rcases hor with he | hm
        · exact h he.symm
        · exact hn hm
      · intro hn hm
        exact hn (Or.inr hm)

theorem lookupT_mem (m : TMap κ) (k : κ) (v : SubmissionTracker)
    (h : lookupT m k = some v) : (k, v) ∈ m := by
  induction m with
  | nil => simp [lookupT] at h
  | cons p rest ih =>
    rcases p with ⟨k', v'⟩
    by_cases hk : k' = k
    · subst hk
      simp [lookupT] at h
      subst h
      exact List.mem_cons_self _ _
    · simp [lookupT, hk] at h
      exact List.mem_cons_of_mem _ (ih h)

theorem length_setT_of_lookup_none (m : TMap κ) (k : κ) (v : SubmissionTracker)
    (h : lookupT m k = none) : (setT m k v).length = m.length + 1 := by
  induction m with
  | nil => simp [setT]
  | cons p rest ih =>
    rcases p with ⟨k', v'⟩
    by_cases hk : k' = k
    · simp [lookupT, hk] at h
    · simp [lookupT, hk] at h
      simp [setT, hk, ih h]

theorem length_setT_of_lookup_some (m : TMap κ) (k : κ) (v w : SubmissionTracker)
    (h : lookupT m k = some w) : (setT m k v).length = m.length := by
  induction m with
  | nil => simp [lookupT] at h
  | cons p rest ih =>
    rcases p with ⟨k', v'⟩
    by_cases hk : k' = k
    · simp [setT, hk]
    · simp [lookupT, hk] at h
      simp [setT, hk, ih h]

theorem length_setT_le (m : TMap κ) (k : κ) (v : SubmissionTracker) :
    (setT m k v).length ≤ m.length + 1 := by
  cases h : lookupT m k with
  | none => simp [length_setT_of_lookup_none m k v h]
  | some w => simp [length_setT_of_lookup_some m k v w h]

theorem delT_sublist (m : TMap κ) (k : κ) : (delT m k).Sublist m := by
  induction m with
  | nil => simp [delT]
  | cons p rest ih =>
    by_cases hk : p.1 = k
    · simpa [delT, hk] using List.sublist_cons_self p rest
    · simpa [delT, hk] using List.Sublist.cons₂ p ih

theorem keysOf_setT_of_lookup_some (m : TMap κ) (k : κ)
    (v w : SubmissionTracker) (h : lookupT m k = some w) :
    keysOf (setT m k v) = keysOf m := by
  induction m with
  | nil => simp [lookupT] at h
  | cons p rest ih =>
    rcases p with ⟨k', v'⟩
    by_cases hk : k' = k
    · subst hk
      simp [setT, keysOf]
    · simp [lookupT, hk] at h
      simp [setT, hk, keysOf] at ih ⊢
      exact ih h

theorem keysOf_setT_of_lookup_none (m : TMap κ) (k : κ)
    (v : SubmissionTracker) (h : lookupT m k = none) :
    keysOf (setT m k v) = keysOf m ++ [k] := by
  induction m with
  | nil => simp [setT, keysOf]
  | cons p rest ih =>
    rcases p with ⟨k', v'⟩
    by_cases hk : k' = k
    · simp [lookupT, hk] at h
    · simp [lookupT, hk] at h
      simp [setT, hk, keysOf] at ih ⊢
      exact ih h

theorem keysNodup_setT (m : TMap κ) (k : κ) (v : SubmissionTracker)
    (h : KeysNodup m) : KeysNodup (setT m k v) := by
  unfold KeysNodup at h ⊢
  cases hl : lookupT m k with
  | some w => rw [keysOf_setT_of_lookup_some m k v w hl]; exact h
  | none =>
    rw [keysOf_setT_of_lookup_none m k v hl]
    rw [lookupT_eq_none_iff] at hl
    rw [List.nodup_append]
    refine ⟨h, List.nodup_singleton k, ?_⟩
    intro a ha hb
    simp at hb
    subst hb
    exact hl ha

theorem keysNodup_delT (m : TMap κ) (k : κ) (h : KeysNodup m) :
    KeysNodup (delT m k) := by
  unfold KeysNodup at h ⊢
  exact ((delT_sublist m k).map Prod.fst).nodup h

theorem keysNodup_filter (m : TMap κ) (pred : κ × SubmissionTracker → Bool)
    (h : KeysNodup m) : KeysNodup (m.filter pred) := by
  unfold KeysNodup at h ⊢
  exact ((List.filter_sublist m).map Prod.fst).nodup h

theorem lookupT_delT_self (m : TMap κ) (k : κ) (h : KeysNodup m) :
    lookupT (delT m k) k = none := by
  induction m with
  | nil => simp [delT, lookupT]
  | cons p rest ih =>
    rcases p with ⟨k', v'⟩
    unfold KeysNodup keysOf at h
    simp [List.nodup_cons] at h
    have hrest : KeysNodup rest := h.2
    by_cases hk : k' = k
    · subst hk
      simp [delT]
      rw [lookupT_eq_none_iff]
      intro hmem
      unfold keysOf at hmem
      simp at hmem
      obtain ⟨b, hb⟩ := hmem
      exact h.1 b hb
    · simp [delT, hk, lookupT, ih hrest]

theorem lookupT_filter_keep (m : TMap κ) (k : κ) (v : SubmissionTracker)
    (pred : κ × SubmissionTracker → Bool) (h : lookupT m k = some v)
    (hp : pred (k, v) = true) : lookupT (m.filter pred) k = some v := by
  induction m with
  | nil => simp [lookupT] at h
  | cons p rest ih =>
    rcases p with ⟨k', v'⟩
    by_cases hk : k' = k
    · subst hk
      simp [lookupT] at h
      subst h
      simp [List.filter, hp, lookupT]
    · simp [lookupT, hk] at h
      cases hpred : pred (k', v') with
      | true => simp [List.filter, hpred, lookupT, hk, ih h]
      | false => simp [List.filter, hpred, ih h]

theorem lookupT_filter_of_nodup (m : TMap κ) (k : κ)
    (pred : κ × SubmissionTracker → Bool) (h : KeysNodup m) :
    lookupT (m.filter pred) k = none ∨
      lookupT (m.filter pred) k = lookupT m k := by
  induction m with
  | nil => simp [lookupT]
  | cons p rest ih =>
    rcases p with ⟨k', v'⟩
    unfold KeysNodup keysOf at h
    simp [List.nodup_cons] at h
    have hrest := ih h.2
    by_cases hk : k' = k
    · subst hk
      cases hpred : pred (k', v') with
      | true => right; simp [List.filter, hpred, lookupT]
      | false =>
        left
        simp [List.filter, hpred]
        rw [lookupT_eq_none_iff]
        intro hmem
        have hsub : keysOf (rest.filter pred) ⊆ keysOf rest :=
          ((List.filter_sublist rest).map Prod.fst).subset
        have : k' ∈ keysOf rest := hsub hmem
        unfold keysOf at this
        simp at this
        obtain ⟨b, hb⟩ := this
        exact h.1 b hb
    · cases hpred : pred (k', v') with
      | true => simpa [List.filter, hpred, lookupT, hk] using hrest
      | false =>
        simp [List.filter, hpred, lookupT, hk]
        exact hrest

theorem mem_keysOf_of_mem (m : TMap κ) (p : κ × SubmissionTracker)
    (h : p ∈ m) : p.1 ∈ keysOf m :=
  List.mem_map_of_mem Prod.fst h

theorem mem_keysOf_iff (m : TMap κ) (k : κ) :
    k ∈ keysOf m ↔ ∃ v, (k, v) ∈ m := by
  constructor
  · intro h
    unfold keysOf at h
    rcases List.mem_map.mp h with ⟨p, hp, hpk⟩
    exact ⟨p.2, by rwa [show (k, p.2) = p from by rw [← hpk]]⟩
  · intro ⟨v, hv⟩
    exact mem_keysOf_of_mem m (k, v) hv

theorem deleteKeys_nil (m : TMap κ) : deleteKeys [] m = m := by
  unfold deleteKeys
  rw [List.filter_eq_self]
  intro p _
  simp

theorem deleteKeys_cons (k : κ) (ks : List κ) (m : TMap κ) :
    deleteKeys (k :: ks) m =
      deleteKeys ks (m.filter (fun p => decide (p.1 ≠ k))) := by
  unfold deleteKeys
  rw [List.filter_filter]
  apply List.filter_congr
  intro p _
  by_cases h1 : p.1 = k
  · simp [h1]
  · by_cases h2 : p.1 ∈ ks
    · simp [h1, h2]
    · simp [h1, h2]

theorem filter_ne_key_of_not_mem (m : TMap κ) (k : κ) (h : k ∉ keysOf m) :
    m.filter (fun p => decide (p.1 ≠ k)) = m := by
  rw [List.filter_eq_self]
  intro p hp
  simp
  intro he
  exact h (he ▸ mem_keysOf_of_mem m p hp)

theorem length_filter_ne_key (m : TMap κ) (k : κ) (hnd : KeysNodup m)
    (hk : k ∈ keysOf m) :
    (m.filter (fun p => decide (p.1 ≠ k))).length = m.length - 1 := by
  induction m with
  | nil => simp [keysOf] at hk
  | cons p rest ih =>
    rcases p with ⟨k', v'⟩
    unfold KeysNodup keysOf at hnd
    simp [List.nodup_cons] at hnd
    have hndr : KeysNodup rest := hnd.2
    by_cases h : k' = k
    · subst h
      have hrest : rest.filter (fun p => decide (p.1 ≠ k')) = rest := by
        apply filter_ne_key_of_not_mem
        rw [mem_keysOf_iff]
        intro ⟨v, hv⟩
        exact hnd.1 v hv
      rw [List.filter_cons, if_neg (by simp), hrest]
      simp
    · have hk' : k ∈ keysOf rest := by
        rcases (mem_keysOf_iff _ k).mp hk with ⟨v, hv⟩
        rcases List.mem_cons.mp hv with he | hm
        · have hke : k = k' := congrArg Prod.fst he
          exact absurd hke.symm h
        · exact mem_keysOf_of_mem rest (k, v) hm
      have hpos : 1 ≤ rest.length := by
        rcases (mem_keysOf_iff rest k).mp hk' with ⟨v, hv⟩
        exact List.length_pos.mpr (List.ne_nil_of_mem hv)
      have hih := ih hndr hk'
      rw [List.filter_cons, if_pos (by simp [h])]
      simp only [List.length_cons]
      rw [hih]
      omega

theorem deleteKeys_length (ks : List κ) (m : TMap κ) (hnd : KeysNodup m)
    (hks : ks.Nodup) (hsub : ∀ k ∈ ks, k ∈ keysOf m) :
    (deleteKeys ks m).length = m.length - ks.length := by
  induction ks generalizing m with
  | nil => simp [deleteKeys_nil]
  | cons k ks ih =>
    rw [deleteKeys_cons]
    simp [List.nodup_cons] at hks
    have h1 := length_filter_ne_key m k hnd (hsub k (List.mem_cons_self k ks))
    have hnd' := keysNodup_filter m (fun p => decide (p.1 ≠ k)) hnd
    have hsub' : ∀ a ∈ ks, a ∈ keysOf (m.filter (fun p => decide (p.1 ≠ k))) := by
      intro a ha
      have hak : a ≠ k := fun he => hks.1 (he ▸ ha)
      rcases (mem_keysOf_iff m a).mp (hsub a (List.mem_cons_of_mem k ha)) with ⟨v, hv⟩
      apply (mem_keysOf_iff _ a).mpr
      refine ⟨v, List.mem_filter.mpr ⟨hv, ?_⟩⟩
      simp [hak]
    have hpos : 1 ≤ m.length := by
      rcases (mem_keysOf_iff m k).mp (hsub k (List.mem_cons_self k ks)) with ⟨v, hv⟩
      exact List.length_pos.mpr (List.ne_nil_of_mem hv)
    rw [ih _ hnd' hks.2 hsub', h1]
    simp
    omega

theorem sortByLast_perm (m : TMap κ) : (sortByLast m).Perm m :=
  List.perm_insertionSort trackerLe m

theorem keysNodup_sortByLast (m : TMap κ) (h : KeysNodup m) :
    KeysNodup (sortByLast m) := by
  unfold KeysNodup
  exact (((sortByLast_perm m).map Prod.fst).nodup_iff).mpr h

theorem enforceLimit_eq_self (m : TMap κ) (h : m.length ≤ MAX_TRACKER_ENTRIES) :
    enforceLimit m = m := by
  unfold enforceLimit
  rw [if_neg]
  omega

theorem evictCount_eq : evictCount = 2000 := rfl

theorem enforceLimit_length_of_gt (m : TMap κ) (hnd : KeysNodup m)
    (h : m.length > MAX_TRACKER_ENTRIES) :
    (enforceLimit m).length = m.length - evictCount := by
  unfold enforceLimit
  rw [if_pos h]
  have hperm := sortByLast_perm m
  have hlen : (sortByLast m).length = m.length := hperm.length_eq
  have hmax : MAX_TRACKER_ENTRIES = 10000 := rfl
  have hev : evictCount ≤ m.length := by
    rw [evictCount_eq]
    omega
  have hkeys : (((sortByLast m).take evictCount).map Prod.fst).length = evictCount := by
    rw [List.length_map, List.length_take, hlen]
    omega
  rw [deleteKeys_length _ m hnd ?_ ?_, hkeys]
  · have hsnd := keysNodup_sortByLast m hnd
    unfold KeysNodup keysOf at hsnd
    rw [List.map_take]
    exact (List.take_sublist _ _).nodup hsnd
  · intro k hk
    rcases List.mem_map.mp hk with ⟨p, hp, hpk⟩
    have hpm : p ∈ m := hperm.mem_iff.mp ((List.take_sublist _ _).subset hp)
    exact hpk ▸ mem_keysOf_of_mem m p hpm

theorem enforceLimit_sublist (m : TMap κ) : (enforceLimit m).Sublist m := by
  unfold enforceLimit
  by_cases h : m.length > MAX_TRACKER_ENTRIES
  · rw [if_pos h]
    exact List.filter_sublist m
  · rw [if_neg h]

theorem enforceLimit_length_le (m : TMap κ) (hnd : KeysNodup m)
    (h : m.length ≤ MAX_TRACKER_ENTRIES + 1) :
    (enforceLimit m).length ≤ MAX_TRACKER_ENTRIES := by
  by_cases hgt : m.length > MAX_TRACKER_ENTRIES
  · rw [enforceLimit_length_of_gt m hnd hgt, evictCount_eq]
    have : MAX_TRACKER_ENTRIES = 10000 := rfl
    omega
  · rw [enforceLimit_eq_self m (by omega)]
    omega

theorem keysNodup_enforceLimit (m : TMap κ) (h : KeysNodup m) :
    KeysNodup (enforceLimit m) := by
  unfold KeysNodup at h ⊢
  exact ((enforceLimit_sublist m).map Prod.fst).nodup h

theorem lookupT_enforceLimit (m : TMap κ) (k : κ) (h : KeysNodup m) :
    lookupT (enforceLimit m) k = none ∨
      lookupT (enforceLimit m) k = lookupT m k := by
  unfold enforceLimit
  by_cases hgt : m.length > MAX_TRACKER_ENTRIES
  · rw [if_pos hgt]
    exact lookupT_filter_of_nodup m k _ h
  · rw [if_neg hgt]
    exact Or.inr rfl

theorem setT_mem (m : TMap κ) (k : κ) (v : SubmissionTracker)
    (p : κ × SubmissionTracker) (h : p ∈ setT m k v) : p ∈ m ∨ p = (k, v) := by
  induction m with
  | nil =>
    simp [setT] at h
    exact Or.inr h
  | cons q rest ih =>
    rcases q with ⟨k', v'⟩
    by_cases hk : k' = k
    · simp [setT, hk] at h
      rcases h with h | h
      · exact Or.inr (by simp [h])
      · exact Or.inl (List.mem_cons_of_mem _ h)
    · simp [setT, hk] at h
      rcases h with h | h
      · exact Or.inl (by simp [h])
      · rcases ih h with h1 | h1
        · exact Or.inl (List.mem_cons_of_mem _ h1)
        · exact Or.inr h1

end MapLemmas

/-! ### The middleware state invariant -/

/-- Facts true of every IP-tracker entry the middleware ever stores, at
clock value `t`. -/
def EntryInv (t : Int) (e : SubmissionTracker) : Prop :=
  1 ≤ e.count ∧ e.firstSubmission ≤ e.lastSubmission ∧ e.lastSubmission ≤ t ∧
    ∀ b, e.blockedUntil = some b → e.firstSubmission + IP_WINDOW ≤ b

def IpMapInv (t : Int) (m : TMap String) : Prop :=
  KeysNodup m ∧ m.length ≤ MAX_TRACKER_ENTRIES + 1 ∧ ∀ p ∈ m, EntryInv t p.2

def StateInv (t : Int) (s : RLState) : Prop :=
  IpMapInv t s.ip ∧ KeysNodup s.email ∧ s.email.length ≤ MAX_TRACKER_ENTRIES + 1

theorem entryInv_mono {t t' : Int} (h : t ≤ t') {e : SubmissionTracker}
    (he : EntryInv t e) : EntryInv t' e :=
  ⟨he.1, he.2.1, le_trans he.2.2.1 h, he.2.2.2⟩

theorem ipMapInv_of_sublist {t : Int} {m m' : TMap String}
    (hs : m'.Sublist m) (h : IpMapInv t m) : IpMapInv t m' :=
  ⟨(hs.map Prod.fst).nodup h.1, le_trans hs.length_le h.2.1,
    fun p hp => h.2.2 p (hs.subset hp)⟩

theorem ipMapInv_mono {t t' : Int} (h : t ≤ t') {m : TMap String}
    (hm : IpMapInv t m) : IpMapInv t' m :=
  ⟨hm.1, hm.2.1, fun p hp => entryInv_mono h (hm.2.2 p hp)⟩

theorem ipMapInv_enforce {t : Int} {m : TMap String} (h : IpMapInv t m) :
    IpMapInv t (enforceLimit m) ∧
      (enforceLimit m).length ≤ MAX_TRACKER_ENTRIES :=
  ⟨ipMapInv_of_sublist (enforceLimit_sublist m) h,
    enforceLimit_length_le m h.1 h.2.1⟩

theorem ipMapInv_ipWindowCheck {now : Int} {m m' : TMap String}
    {ip : String} {t : SubmissionTracker} {o : Option RLResult}
    (hm : IpMapInv now m) (hmem : (ip, t) ∈ m)
    (h : ipWindowCheck ip now m t = (o, m')) :
    IpMapInv now m' ∧ m'.length ≤ m.length := by
  unfold ipWindowCheck at h
  split_ifs at h with h1 h2
  · rw [Prod.mk.injEq] at h
    rw [← h.2]
    exact ⟨ipMapInv_of_sublist (delT_sublist m ip) hm, (delT_sublist m ip).length_le⟩
  · rw [Prod.mk.injEq] at h
    rw [← h.2]
    have hinv := hm.2.2 (ip, t) hmem
    have hlook : ∃ w, lookupT m ip = some w := by
      cases hl : lookupT m ip with
      | none =>
        rw [lookupT_eq_none_iff] at hl
        exact absurd (mem_keysOf_of_mem m (ip, t) hmem) hl
      | some w => exact ⟨w, rfl⟩
    rcases hlook with ⟨w, hw⟩
    refine ⟨⟨keysNodup_setT m ip _ hm.1, ?_, ?_⟩, ?_⟩
    · rw [length_setT_of_lookup_some m ip _ w hw]
      exact hm.2.1
    · intro p hp
      rcases setT_mem m ip _ p hp with hpm | hpe
      · exact hm.2.2 p hpm
      · rw [hpe]
        refine ⟨hinv.1, hinv.2.1, hinv.2.2.1, ?_⟩
        intro b hb
        simp at hb
        show t.firstSubmission + IP_WINDOW ≤ b
        have hfl : t.firstSubmission ≤ now := le_trans hinv.2.1 hinv.2.2.1
        have hwb : IP_WINDOW = BLOCK_DURATION := rfl
        omega
    · rw [length_setT_of_lookup_some m ip _ w hw]
  · rw [Prod.mk.injEq] at h
    rw [← h.2]
    exact ⟨hm, le_refl _⟩

theorem ipMapInv_ipPhaseCheck {now : Int} {m m' : TMap String}
    {ip : String} {o : Option RLResult} (hm : IpMapInv now m)
    (h : ipPhaseCheck ip now m = (o, m')) :
    IpMapInv now m' ∧ m'.length ≤ m.length := by
  unfold ipPhaseCheck at h
  cases hl : lookupT m ip with
  | none =>
    simp only [hl] at h
    rw [Prod.mk.injEq] at h
    rw [← h.2]
    exact ⟨hm, le_refl _⟩
  | some t =>
    simp only [hl] at h
    have hmem := lookupT_mem m ip t hl
    cases hb : t.blockedUntil with
    | some b =>
      simp only [hb] at h
      by_cases hnb : now < b
      · rw [if_pos hnb, Prod.mk.injEq] at h
        rw [← h.2]
        exact ⟨hm, le_refl _⟩
      · rw [if_neg hnb] at h
        exact ipMapInv_ipWindowCheck hm hmem h
    | none =>
      simp only [hb] at h
      exact ipMapInv_ipWindowCheck hm hmem h

theorem emailPhaseCheck_shape {now : Int} {m m' : TMap String} {e : String}
    {o : Option RLResult} (h : emailPhaseCheck e now m = (o, m')) :
    m' = m ∨ m' = delT m e := by
  unfold emailPhaseCheck at h
  cases hl : lookupT m e with
  | none =>
    simp only [hl] at h
    rw [Prod.mk.injEq] at h
    exact Or.inl h.2.symm
  | some t =>
    simp only [hl] at h
    split_ifs at h with h1
    · rw [Prod.mk.injEq] at h
      exact Or.inl h.2.symm
    · rw [Prod.mk.injEq] at h
      exact Or.inr h.2.symm

theorem updateTrackers_fresh (m em : TMap String) (ip : String)
    (ek : Option String) (now : Int) (hl : lookupT m ip = none) :
    updateTrackers ip ek now ⟨m, em⟩ =
      ⟨setT m ip ⟨1, now, now, none⟩,
        match ek with
        | some e => setT em e ⟨1, now, now, none⟩
        | none => em⟩ := by
  simp only [updateTrackers, hl]
  rfl

theorem updateTrackers_incr (m em : TMap String) (ip : String)
    (ek : Option String) (now : Int) (t0 : SubmissionTracker)
    (hl : lookupT m ip = some t0) (hc : t0.count + 1 ≠ 1) :
    updateTrackers ip ek now ⟨m, em⟩ =
      ⟨setT m ip { t0 with count := t0.count + 1, lastSubmission := now },
        match ek with
        | some e => setT em e ⟨1, now, now, none⟩
        | none => em⟩ := by
  simp only [updateTrackers, hl, Option.getD_some]
  rw [if_neg hc]

theorem stateInv_updateTrackers {now : Int} {m em : TMap String}
    {ip : String} {ek : Option String}
    (hm : IpMapInv now m) (hmlen : m.length ≤ MAX_TRACKER_ENTRIES)
    (hem : KeysNodup em) (hemlen : em.length ≤ MAX_TRACKER_ENTRIES) :
    StateInv now (updateTrackers ip ek now ⟨m, em⟩) := by
  have hemInv : KeysNodup (match ek with
        | some e => setT em e (⟨1, now, now, none⟩ : SubmissionTracker)
        | none => em) ∧
      (match ek with
        | some e => setT em e (⟨1, now, now, none⟩ : SubmissionTracker)
        | none => em).length ≤ MAX_TRACKER_ENTRIES + 1 := by
    cases ek with
    | none => exact ⟨hem, le_trans hemlen (Nat.le_succ _)⟩
    | some e =>
      exact ⟨keysNodup_setT em e _ hem,
        le_trans (length_setT_le em e _) (Nat.add_le_add_right hemlen 1)⟩
  cases hl : lookupT m ip with
  | none =>
    rw [updateTrackers_fresh m em ip ek now hl]
    refine ⟨⟨keysNodup_setT m ip _ hm.1,
      le_trans (length_setT_le m ip _) (Nat.add_le_add_right hmlen 1), ?_⟩,
      hemInv.1, hemInv.2⟩
    intro p hp
    rcases setT_mem m ip _ p hp with hpm | hpe
    · exact hm.2.2 p hpm
    · rw [hpe]
      refine ⟨le_refl 1, le_refl now, le_refl now, ?_⟩
      intro b hb
      simp at hb
  | some t0 =>
    have hinv := hm.2.2 (ip, t0) (lookupT_mem m ip t0 hl)
    have hc : t0.count + 1 ≠ 1 := by
      have h1c : 1 ≤ t0.count := hinv.1
      omega
    rw [updateTrackers_incr m em ip ek now t0 hl hc]
    refine ⟨⟨keysNodup_setT m ip _ hm.1,
      le_trans (length_setT_le m ip _) (Nat.add_le_add_right hmlen 1), ?_⟩,
      hemInv.1, hemInv.2⟩
    intro p hp
    rcases setT_mem m ip _ p hp with hpm | hpe
    · exact hm.2.2 p hpm
    · rw [hpe]
      refine ⟨?_, ?_, le_refl now, ?_⟩
      · show 1 ≤ t0.count + 1
        omega
      · show t0.firstSubmission ≤ now
        exact le_trans hinv.2.1 hinv.2.2.1
      · intro b hb
        exact hinv.2.2.2 b hb

theorem stateInv_step {t now : Int} {s : RLState} (ip : String)
    (email : Option String) (hs : StateInv t s) (hle : t ≤ now) :
    StateInv now (vendorSubmissionRateLimiter ip email now s).2 := by
  have hs' : StateInv now s :=
    ⟨ipMapInv_mono hle hs.1, hs.2.1, hs.2.2⟩
  unfold vendorSubmissionRateLimiter enforceTrackerLimits
  have hip := ipMapInv_enforce hs'.1
  have hemnd : KeysNodup (enforceLimit s.email) := keysNodup_enforceLimit _ hs'.2.1
  have hemlen : (enforceLimit s.email).length ≤ MAX_TRACKER_ENTRIES :=
    enforceLimit_length_le _ hs'.2.1 hs'.2.2
  cases hipc : ipPhaseCheck ip now (enforceLimit s.ip) with
  | mk o m' =>
    have hm' := ipMapInv_ipPhaseCheck hip.1 hipc
    have hm'len : m'.length ≤ MAX_TRACKER_ENTRIES := le_trans hm'.2 hip.2
    cases o with
    | some r =>
      simp [hipc]
      exact ⟨hm'.1, hemnd, le_trans hemlen (Nat.le_succ _)⟩
    | none =>
      cases hek : emailKeyOf email with
      | none =>
        simp [hipc, hek]
        exact stateInv_updateTrackers hm'.1 hm'len hemnd hemlen
      | some e =>
        cases hepc : emailPhaseCheck e now (enforceLimit s.email) with
        | mk eo em' =>
          have hshape := emailPhaseCheck_shape hepc
          have hemnd' : KeysNodup em' := by
            rcases hshape with h | h
            · rw [h]; exact hemnd
            · rw [h]; exact keysNodup_delT _ e hemnd
          have hemlen' : em'.length ≤ MAX_TRACKER_ENTRIES := by
            rcases hshape with h | h
            · rw [h]; exact hemlen
            · rw [h]; exact le_trans (delT_sublist _ e).length_le hemlen
          cases eo with
          | some r =>
            simp [hipc, hek, hepc]
            exact ⟨hm'.1, hemnd', le_trans hemlen' (Nat.le_succ _)⟩
          | none =>
            simp [hipc, hek, hepc]
            exact stateInv_updateTrackers hm'.1 hm'len hemnd' hemlen'

theorem stateInv_sweep {t now : Int} {s : RLState} (hs : StateInv t s)
    (hle : t ≤ now) : StateInv now (cleanupTrackers now s) := by
  have hs' : StateInv now s := ⟨ipMapInv_mono hle hs.1, hs.2.1, hs.2.2⟩
  unfold cleanupTrackers
  refine ⟨ipMapInv_of_sublist (List.filter_sublist s.ip) hs'.1, ?_, ?_⟩
  · exact keysNodup_filter _ _ hs'.2.1
  · exact le_trans (List.filter_sublist s.email).length_le hs'.2.2

/-- Every reachable middleware state satisfies the invariant. -/
theorem reachable_inv {s : RLState} {t : Int} (h : Reachable s t) :
    StateInv t s := by
  induction h with
  | init t =>
    refine ⟨⟨?_, ?_, ?_⟩, ?_, ?_⟩ <;> simp [KeysNodup, keysOf]
  | step ip email hr hle ih => exact stateInv_step ip email ih hle
  | sweep hr hle ih => exact stateInv_sweep ih hle

/-! ### Step equations for the rate limiter -/

theorem enforceTrackerLimits_eq_self {s : RLState}
    (hip : s.ip.length ≤ MAX_TRACKER_ENTRIES)
    (hem : s.email.length ≤ MAX_TRACKER_ENTRIES) :
    enforceTrackerLimits s = s := by
  unfold enforceTrackerLimits
  rw [enforceLimit_eq_self s.ip hip, enforceLimit_eq_self s.email hem]

/-- An attempt whose address is inside an active block window is rejected
with `IP_BLOCKED`, whatever the email, and the state is untouched. -/
theorem rl_blocked {s : RLState} {ip : String} {email : Option String}
    {now : Int} {t : SubmissionTracker} {b : Int}
    (hip : s.ip.length ≤ MAX_TRACKER_ENTRIES)
    (hem : s.email.length ≤ MAX_TRACKER_ENTRIES)
    (hl : lookupT s.ip ip = some t) (hb : t.blockedUntil = some b)
    (hnb : now < b) :
    vendorSubmissionRateLimiter ip email now s =
      (.rejected 429 "IP_BLOCKED" (ceilDiv (b - now) 60000), s) := by
  have hs1 := enforceTrackerLimits_eq_self hip hem
  have hipc : ipPhaseCheck ip now s.ip =
      (some (.rejected 429 "IP_BLOCKED" (ceilDiv (b - now) 60000)), s.ip) := by
    unfold ipPhaseCheck
    simp only [hl, hb, if_pos hnb]
  simp only [vendorSubmissionRateLimiter, hs1, hipc]

/-- An attempt finding a full counter in an unexpired window (and no
active block) is rejected with `IP_RATE_LIMIT_EXCEEDED` and sets
`blockedUntil = now + BLOCK_DURATION`. -/
theorem rl_limit {s : RLState} {ip : String} {email : Option String}
    {now : Int} {t : SubmissionTracker}
    (hip : s.ip.length ≤ MAX_TRACKER_ENTRIES)
    (hem : s.email.length ≤ MAX_TRACKER_ENTRIES)
    (hl : lookupT s.ip ip = some t)
    (hnb : ∀ b, t.blockedUntil = some b → b ≤ now)
    (hw : now - t.firstSubmission ≤ IP_WINDOW)
    (hc : IP_MAX_ATTEMPTS ≤ t.count) :
    vendorSubmissionRateLimiter ip email now s =
      (.rejected 429 "IP_RATE_LIMIT_EXCEEDED" 60,
        ⟨setT s.ip ip { t with blockedUntil := some (now + BLOCK_DURATION) },
          s.email⟩) := by
  have hs1 := enforceTrackerLimits_eq_self hip hem
  have h60 : ceilDiv BLOCK_DURATION 60000 = 60 := by decide
  have hwc : ipWindowCheck ip now s.ip t =
      (some (.rejected 429 "IP_RATE_LIMIT_EXCEEDED" 60),
        setT s.ip ip { t with blockedUntil := some (now + BLOCK_DURATION) }) := by
    unfold ipWindowCheck
    rw [if_neg (not_lt.mpr hw), if_pos hc, h60]
  have hipc : ipPhaseCheck ip now s.ip =
      (some (.rejected 429 "IP_RATE_LIMIT_EXCEEDED" 60),
        setT s.ip ip { t with blockedUntil := some (now + BLOCK_DURATION) }) := by
    unfold ipPhaseCheck
    cases hb : t.blockedUntil with
    | none => simp only [hl, hb]; exact hwc
    | some b => simp only [hl, hb, if_neg (not_lt.mpr (hnb b hb))]; exact hwc
  simp only [vendorSubmissionRateLimiter, hs1, hipc]

/-- A first attempt from an untracked address with no email is allowed and
creates a fresh counter. -/
theorem rl_allowed_fresh {s : RLState} {ip : String} {now : Int}
    (hip : s.ip.length ≤ MAX_TRACKER_ENTRIES)
    (hem : s.email.length ≤ MAX_TRACKER_ENTRIES)
    (hl : lookupT s.ip ip = none) :
    vendorSubmissionRateLimiter ip none now s =
      (.allowed, ⟨setT s.ip ip ⟨1, now, now, none⟩, s.email⟩) := by
  have hs1 := enforceTrackerLimits_eq_self hip hem
  have hipc : ipPhaseCheck ip now s.ip = (none, s.ip) := by
    unfold ipPhaseCheck
    simp only [hl]
  simp only [vendorSubmissionRateLimiter, hs1, hipc, emailKeyOf]
  rw [updateTrackers_fresh s.ip s.email ip none now hl]

/-- A repeat attempt from a tracked address inside the window, below the
attempt cap and not blocked, is allowed and increments the counter. -/
theorem rl_allowed_incr {s : RLState} {ip : String} {now : Int}
    {t : SubmissionTracker}
    (hip : s.ip.length ≤ MAX_TRACKER_ENTRIES)
    (hem : s.email.length ≤ MAX_TRACKER_ENTRIES)
    (hl : lookupT s.ip ip = some t)
    (hnb : ∀ b, t.blockedUntil = some b → b ≤ now)
    (hw : now - t.firstSubmission ≤ IP_WINDOW)
    (hc : t.count < IP_MAX_ATTEMPTS) (hc1 : 1 ≤ t.count) :
    vendorSubmissionRateLimiter ip none now s =
      (.allowed,
        ⟨setT s.ip ip { t with count := t.count + 1, lastSubmission := now },
          s.email⟩) := by
  have hs1 := enforceTrackerLimits_eq_self hip hem
  have hwc : ipWindowCheck ip now s.ip t = (none, s.ip) := by
    unfold ipWindowCheck
    rw [if_neg (not_lt.mpr hw), if_neg (not_le.mpr hc)]
  have hipc : ipPhaseCheck ip now s.ip = (none, s.ip) := by
    unfold ipPhaseCheck
    cases hb : t.blockedUntil with
    | none => simp only [hl, hb]; exact hwc
    | some b => simp only [hl, hb, if_neg (not_lt.mpr (hnb b hb))]; exact hwc
  simp only [vendorSubmissionRateLimiter, hs1, hipc, emailKeyOf]
  rw [updateTrackers_incr s.ip s.email ip none now t hl (by omega)]

/-- An attempt finding an expired window (and no active block) deletes the
stale counter and is treated as a fresh first attempt. -/
theorem rl_window_reset {s : RLState} {ip : String} {now : Int}
    {t : SubmissionTracker}
    (hip : s.ip.length ≤ MAX_TRACKER_ENTRIES)
    (hem : s.email.length ≤ MAX_TRACKER_ENTRIES)
    (hnd : KeysNodup s.ip)
    (hl : lookupT s.ip ip = some t)
    (hnb : ∀ b, t.blockedUntil = some b → b ≤ now)
    (hw : now - t.firstSubmission > IP_WINDOW) :
    vendorSubmissionRateLimiter ip none now s =
      (.allowed, ⟨setT (delT s.ip ip) ip ⟨1, now, now, none⟩, s.email⟩) := by
  have hs1 := enforceTrackerLimits_eq_self hip hem
  have hwc : ipWindowCheck ip now s.ip t = (none, delT s.ip ip) := by
    unfold ipWindowCheck
    rw [if_pos hw]
  have hipc : ipPhaseCheck ip now s.ip = (none, delT s.ip ip) := by
    unfold ipPhaseCheck
    cases hb : t.blockedUntil with
    | none => simp only [hl, hb]; exact hwc
    | some b => simp only [hl, hb, if_neg (not_lt.mpr (hnb b hb))]; exact hwc
  simp only [vendorSubmissionRateLimiter, hs1, hipc, emailKeyOf]
  rw [updateTrackers_fresh (delT s.ip ip) s.email ip none now
    (lookupT_delT_self s.ip ip hnd)]

/-- An attempt whose email key has an unexpired email-tracker entry is
rejected with HTTP 409 and error `DUPLICATE_EMAIL`, and no tracker is
updated (here: the address is untracked and stays untracked). -/
theorem rl_email_reject {s : RLState} {ip : String} {email : Option String}
    {e : String} {now : Int} {et : SubmissionTracker}
    (hip : s.ip.length ≤ MAX_TRACKER_ENTRIES)
    (hem : s.email.length ≤ MAX_TRACKER_ENTRIES)
    (hl : lookupT s.ip ip = none)
    (hek : emailKeyOf email = some e)
    (hle : lookupT s.email e = some et)
    (hwin : now - et.firstSubmission < EMAIL_WINDOW) :
    vendorSubmissionRateLimiter ip email now s =
      (.rejected 409 "DUPLICATE_EMAIL"
        (ceilDiv (EMAIL_WINDOW - (now - et.firstSubmission)) 3600000), s) := by
  have hs1 := enforceTrackerLimits_eq_self hip hem
  have hipc : ipPhaseCheck ip now s.ip = (none, s.ip) := by
    unfold ipPhaseCheck
    simp only [hl]
  have hepc : emailPhaseCheck e now s.email =
      (some (.rejected 409 "DUPLICATE_EMAIL"
        (ceilDiv (EMAIL_WINDOW - (now - et.firstSubmission)) 3600000)), s.email) := by
    unfold emailPhaseCheck
    simp only [hle, if_pos hwin]
  simp only [vendorSubmissionRateLimiter, hs1, hipc, hek, hepc]

/-- Any rejection produced by the IP phase carries HTTP status 429. -/
theorem ipPhaseCheck_rejected_status {ip : String} {now : Int}
    {m m2 : TMap String} {r : RLResult}
    (h : ipPhaseCheck ip now m = (some r, m2)) :
    ∃ er hint, r = RLResult.rejected 429 er hint := by
  have hwc : ∀ t, ipWindowCheck ip now m t = (some r, m2) →
      ∃ er hint, r = RLResult.rejected 429 er hint := by
    intro t hw
    unfold ipWindowCheck at hw
    split_ifs at hw with h1 h2
    · simp at hw
    · rw [Prod.mk.injEq] at hw
      rcases hw with ⟨hw1, _⟩
      cases hw1
      exact ⟨_, _, rfl⟩
    · simp at hw
  unfold ipPhaseCheck at h
  cases hl : lookupT m ip with
  | none =>
    simp only [hl] at h
    simp at h
  | some t =>
    simp only [hl] at h
    cases hb : t.blockedUntil with
    | some b =>
      simp only [hb] at h
      by_cases hnb : now < b
      · rw [if_pos hnb, Prod.mk.injEq] at h
        rcases h with ⟨h1, _⟩
        cases h1
        exact ⟨_, _, rfl⟩
      · rw [if_neg hnb] at h
        exact hwc t h
    | none =>
      simp only [hb] at h
      exact hwc t h

/-- When the IP phase falls through, the address map was either left alone
or had the stale entry for this address deleted. -/
theorem ipPhaseCheck_none_shape {ip : String} {now : Int} {m m2 : TMap String}
    (h : ipPhaseCheck ip now m = (none, m2)) : m2 = m ∨ m2 = delT m ip := by
  have hwc : ∀ t, ipWindowCheck ip now m t = (none, m2) →
      m2 = m ∨ m2 = delT m ip := by
    intro t hw
    unfold ipWindowCheck at hw
    split_ifs at hw with h1 h2
    · rw [Prod.mk.injEq] at hw
      exact Or.inr hw.2.symm
    · simp at hw
    · rw [Prod.mk.injEq] at hw
      exact Or.inl hw.2.symm
  unfold ipPhaseCheck at h
  cases hl : lookupT m ip with
  | none =>
    simp only [hl] at h
    rw [Prod.mk.injEq] at h
    exact Or.inl h.2.symm
  | some t =>
    simp only [hl] at h
    cases hb : t.blockedUntil with
    | some b =>
      simp only [hb] at h
      by_cases hnb : now < b
      · rw [if_pos hnb] at h
        simp at h
      · rw [if_neg hnb] at h
        exact hwc t h
    | none =>
      simp only [hb] at h
      exact hwc t h

/-- Cleanup keeps every IP entry whose block has not yet
expired, regardless of its window. -/
theorem cleanup_keeps_blocked {s : RLState} {now : Int} {k : String}
    {t : SubmissionTracker} {b : Int} (hl : lookupT s.ip k = some t)
    (hb : t.blockedUntil = some b) (hnow : now ≤ b) :
    lookupT (cleanupTrackers now s).ip k = some t := by
  unfold cleanupTrackers
  apply lookupT_filter_keep s.ip k t _ hl
  have hbe : blockExpiredB now t = false := by
    unfold blockExpiredB
    rw [hb]
    simp
    omega
  simp [hbe]

/-! ### Claim theorems -/

/-- C1 counterexample.  With an untracked address and a tracked email, the
submission is rejected by the identity (email) check, yet the whole state
is unchanged: the address tracker was NOT updated for this attempt — no
counter exists for the address afterwards, so no address-window attempt
was spent.  This refutes the claim that the address tracker has already
been committed when the identity check rejects. -/
theorem C1_cex :
    (vendorSubmissionRateLimiter "1.1.1.1" (some "a@b.com") 1000
        ⟨[], [("a@b.com", ⟨1, 0, 0, none⟩)]⟩).1 =
      RLResult.rejected 409 "DUPLICATE_EMAIL" 24 ∧
    (vendorSubmissionRateLimiter "1.1.1.1" (some "a@b.com") 1000
        ⟨[], [("a@b.com", ⟨1, 0, 0, none⟩)]⟩).2 =
      ⟨[], [("a@b.com", ⟨1, 0, 0, none⟩)]⟩ ∧
    lookupT (vendorSubmissionRateLimiter "1.1.1.1" (some "a@b.com") 1000
        ⟨[], [("a@b.com", ⟨1, 0, 0, none⟩)]⟩).2.ip "1.1.1.1" = none := by
  decide

/-- C1 (amended): when a submission is rejected by the identity (email)
check, the address tracker has NOT been charged for the attempt: both
checks run before either tracker commits, so afterwards the address
either has no counter at all or exactly the counter it had after the
initial memory-limit enforcement — its count is never incremented and its
`lastSubmission` never set by this attempt. -/
theorem C1_thm (s : RLState) (ip : String) (email : Option String)
    (now hint : Int) (hnd : KeysNodup s.ip)
    (hrej : (vendorSubmissionRateLimiter ip email now s).1 =
      RLResult.rejected 409 "DUPLICATE_EMAIL" hint) :
    lookupT (vendorSubmissionRateLimiter ip email now s).2.ip ip = none ∨
      lookupT (vendorSubmissionRateLimiter ip email now s).2.ip ip =
        lookupT (enforceLimit s.ip) ip := by
  cases hipc : ipPhaseCheck ip now (enforceLimit s.ip) with
  | mk o m =>
    cases o with
    | some r =>
      simp only [vendorSubmissionRateLimiter, enforceTrackerLimits, hipc] at hrej
      rcases ipPhaseCheck_rejected_status hipc with ⟨er, h429, hr⟩
      rw [hr] at hrej
      simp at hrej
    | none =>
      cases hek : emailKeyOf email with
      | none =>
        simp only [vendorSubmissionRateLimiter, enforceTrackerLimits, hipc,
          hek] at hrej
        simp at hrej
      | some e =>
        cases hepc : emailPhaseCheck e now (enforceLimit s.email) with
        | mk eo em =>
          cases eo with
          | none =>
            simp only [vendorSubmissionRateLimiter, enforceTrackerLimits, hipc,
              hek, hepc] at hrej
            simp at hrej
          | some r =>
            simp only [vendorSubmissionRateLimiter, enforceTrackerLimits, hipc,
              hek, hepc]
            rcases ipPhaseCheck_none_shape hipc with hm | hm
            · right
              rw [hm]
            · left
              rw [hm]
              exact lookupT_delT_self _ ip (keysNodup_enforceLimit _ hnd)

/-- C1 witness: the amended theorem applied at a concrete identity-side
rejection. -/
theorem C1_witness :
    lookupT (vendorSubmissionRateLimiter "1.2.3.4" (some "x@y.com") 500
        ⟨[], [("x@y.com", ⟨1, 0, 0, none⟩)]⟩).2.ip "1.2.3.4" = none ∨
      lookupT (vendorSubmissionRateLimiter "1.2.3.4" (some "x@y.com") 500
        ⟨[], [("x@y.com", ⟨1, 0, 0, none⟩)]⟩).2.ip "1.2.3.4" =
        lookupT (enforceLimit ([("x@y.com", (⟨1, 0, 0, none⟩ : SubmissionTracker))] : TMap String)) "1.2.3.4" :=
  C1_thm ⟨[], [("x@y.com", ⟨1, 0, 0, none⟩)]⟩ "1.2.3.4" (some "x@y.com") 500 24
    (by decide) (by decide)

/-- C3 counterexample: the boundary is strict.  A key blocked until
3601000 attempts again at exactly `now = blockedUntil = 3601000`; the
claim says every attempt is rejected until `now > blockedUntil`, so this
attempt should be rejected — but the code's block test is
`now < blockedUntil`, the expired window is then reset, and the attempt
is ALLOWED. -/
theorem C3_cex :
    (vendorSubmissionRateLimiter "9.9.9.9" none 3601000
        ⟨[("9.9.9.9", ⟨3, 0, 1000, some 3601000⟩)], []⟩).1 =
      RLResult.allowed := by
  decide

/-- C3 (amended): while `now < blockedUntil` (strictly before the block
expires, not merely `now ≤ blockedUntil`), every attempt for the blocked
key is rejected with `IP_BLOCKED` and the state is untouched — even if
the counting window has already expired, since no window hypothesis is
required; and time-based cleanup never removes a counter whose block has
not yet expired (`now ≤ blockedUntil`), even if its window has expired —
the block outlives the counting window. -/
theorem C3_thm :
    (∀ (s : RLState) (ip : String) (email : Option String) (now : Int)
      (t : SubmissionTracker) (b : Int),
        s.ip.length ≤ MAX_TRACKER_ENTRIES →
        s.email.length ≤ MAX_TRACKER_ENTRIES →
        lookupT s.ip ip = some t → t.blockedUntil = some b → now < b →
        vendorSubmissionRateLimiter ip email now s =
          (RLResult.rejected 429 "IP_BLOCKED" (ceilDiv (b - now) 60000), s)) ∧
    (∀ (s : RLState) (now : Int) (k : String) (t : SubmissionTracker) (b : Int),
        lookupT s.ip k = some t → t.blockedUntil = some b → now ≤ b →
        lookupT (cleanupTrackers now s).ip k = some t) :=
  ⟨fun _ _ _ _ _ _ hip hem hl hb hnb => rl_blocked hip hem hl hb hnb,
    fun _ _ _ _ _ hl hb hnow => cleanup_keeps_blocked hl hb hnow⟩

/-- C3 witness: a blocked key one millisecond before expiry is rejected
with the state untouched, and cleanup far past the window keeps the
blocked counter. -/
theorem C3_witness :
    vendorSubmissionRateLimiter "9.9.9.9" none 3600999
        ⟨[("9.9.9.9", ⟨3, 0, 1000, some 3601000⟩)], []⟩ =
      (RLResult.rejected 429 "IP_BLOCKED" 1,
        ⟨[("9.9.9.9", ⟨3, 0, 1000, some 3601000⟩)], []⟩) ∧
    lookupT (cleanupTrackers 3600999
        ⟨[("9.9.9.9", ⟨3, 0, 1000, some 3601000⟩)], []⟩).ip "9.9.9.9" =
      some ⟨3, 0, 1000, some 3601000⟩ :=
  ⟨C3_thm.1 ⟨[("9.9.9.9", ⟨3, 0, 1000, some 3601000⟩)], []⟩ "9.9.9.9" none
      3600999 ⟨3, 0, 1000, some 3601000⟩ 3601000 (by decide) (by decide)
      (by decide) (by decide) (by decide),
    C3_thm.2 ⟨[("9.9.9.9", ⟨3, 0, 1000, some 3601000⟩)], []⟩ 3600999 "9.9.9.9"
      ⟨3, 0, 1000, some 3601000⟩ 3601000 (by decide) (by decide) (by decide)⟩

/-- C5 counterexample: a submission whose (case-insensitively matched)
email already has an accepted submission within the 24-hour identity
window is rejected by the rate limiter with HTTP status 409 and error
code "DUPLICATE_EMAIL" — the duplicate-content label and status — not
with HTTP 429 and a distinct identity-rate-limit reason as the claim
states. -/
theorem C5_cex :
    (vendorSubmissionRateLimiter "1.2.3.4" (some "A@B.com") 1000
        ⟨[], [("a@b.com", ⟨1, 0, 0, none⟩)]⟩).1 =
      RLResult.rejected 409 "DUPLICATE_EMAIL" 24 := by
  decide

/-- C5 (amended): a submission whose email key has an unexpired
email-tracker entry is rejected with HTTP 409 (the same status used for
duplicate-content rejections) carrying the error label "DUPLICATE_EMAIL"
and an `hoursLeft` retry hint; there is no distinct 429 identity-rate-limit
response in the code. -/
theorem C5_thm (s : RLState) (ip : String) (email : Option String)
    (e : String) (now : Int) (et : SubmissionTracker)
    (hip : s.ip.length ≤ MAX_TRACKER_ENTRIES)
    (hem : s.email.length ≤ MAX_TRACKER_ENTRIES)
    (hl : lookupT s.ip ip = none)
    (hek : emailKeyOf email = some e)
    (hle : lookupT s.email e = some et)
    (hwin : now - et.firstSubmission < EMAIL_WINDOW) :
    vendorSubmissionRateLimiter ip email now s =
      (RLResult.rejected 409 "DUPLICATE_EMAIL"
        (ceilDiv (EMAIL_WINDOW - (now - et.firstSubmission)) 3600000), s) :=
  rl_email_reject hip hem hl hek hle hwin

/-- C5 witness: the amended theorem at a concrete input (10 minutes after
the first submission, case-differing email). -/
theorem C5_witness :
    vendorSubmissionRateLimiter "5.6.7.8" (some "X@Y.com") 600000
        ⟨[], [("x@y.com", ⟨1, 0, 0, none⟩)]⟩ =
      (RLResult.rejected 409 "DUPLICATE_EMAIL" 24,
        ⟨[], [("x@y.com", ⟨1, 0, 0, none⟩)]⟩) :=
  C5_thm ⟨[], [("x@y.com", ⟨1, 0, 0, none⟩)]⟩ "5.6.7.8" (some "X@Y.com")
    "x@y.com" 600000 ⟨1, 0, 0, none⟩ (by decide) (by decide) (by decide)
    (by decide) (by decide) (by decide)

/-- C2: for any address key starting an unexpired window, attempts one,
two and three (the `IP_MAX_ATTEMPTS` threshold) are allowed, and the
fourth attempt — the one pushing the count strictly past the threshold —
is rejected with `IP_RATE_LIMIT_EXCEEDED` and sets
`blockedUntil = now + BLOCK_DURATION`, `now` being the time of that
fourth attempt. -/
theorem C2_thm (s : RLState) (ip : String) (t1 t2 t3 t4 : Int)
    (hip : s.ip.length + 1 ≤ MAX_TRACKER_ENTRIES)
    (hem : s.email.length ≤ MAX_TRACKER_ENTRIES)
    (hl : lookupT s.ip ip = none)
    (h12 : t1 ≤ t2) (h23 : t2 ≤ t3) (h34 : t3 ≤ t4)
    (hw : t4 - t1 ≤ IP_WINDOW) :
    (vendorSubmissionRateLimiter ip none t1 s).1 = RLResult.allowed ∧
    lookupT (vendorSubmissionRateLimiter ip none t1 s).2.ip ip =
      some ⟨1, t1, t1, none⟩ ∧
    (vendorSubmissionRateLimiter ip none t2
        (vendorSubmissionRateLimiter ip none t1 s).2).1 = RLResult.allowed ∧
    lookupT (vendorSubmissionRateLimiter ip none t2
        (vendorSubmissionRateLimiter ip none t1 s).2).2.ip ip =
      some ⟨2, t1, t2, none⟩ ∧
    (vendorSubmissionRateLimiter ip none t3
        (vendorSubmissionRateLimiter ip none t2
          (vendorSubmissionRateLimiter ip none t1 s).2).2).1 =
      RLResult.allowed ∧
    lookupT (vendorSubmissionRateLimiter ip none t3
        (vendorSubmissionRateLimiter ip none t2
          (vendorSubmissionRateLimiter ip none t1 s).2).2).2.ip ip =
      some ⟨3, t1, t3, none⟩ ∧
    (vendorSubmissionRateLimiter ip none t4
        (vendorSubmissionRateLimiter ip none t3
          (vendorSubmissionRateLimiter ip none t2
            (vendorSubmissionRateLimiter ip none t1 s).2).2).2).1 =
      RLResult.rejected 429 "IP_RATE_LIMIT_EXCEEDED" 60 ∧
    lookupT (vendorSubmissionRateLimiter ip none t4
        (vendorSubmissionRateLimiter ip none t3
          (vendorSubmissionRateLimiter ip none t2
            (vendorSubmissionRateLimiter ip none t1 s).2).2).2).2.ip ip =
      some ⟨3, t1, t3, some (t4 + BLOCK_DURATION)⟩ := by
  have hmax : MAX_TRACKER_ENTRIES = 10000 := rfl
  have hattempts : IP_MAX_ATTEMPTS = 3 := rfl
  have hwin : t2 - t1 ≤ IP_WINDOW ∧ t3 - t1 ≤ IP_WINDOW := by
    constructor <;> omega
  have e1 : vendorSubmissionRateLimiter ip none t1 s =
      (RLResult.allowed, ⟨setT s.ip ip ⟨1, t1, t1, none⟩, s.email⟩) :=
    rl_allowed_fresh (by omega) hem hl
  have hl1 : lookupT (setT s.ip ip (⟨1, t1, t1, none⟩ : SubmissionTracker)) ip =
      some ⟨1, t1, t1, none⟩ := lookupT_setT_self s.ip ip _
  have hlen1 : (setT s.ip ip (⟨1, t1, t1, none⟩ : SubmissionTracker)).length =
      s.ip.length + 1 := length_setT_of_lookup_none s.ip ip _ hl
  have e2 : vendorSubmissionRateLimiter ip none t2
      (⟨setT s.ip ip ⟨1, t1, t1, none⟩, s.email⟩ : RLState) =
      (RLResult.allowed,
        ⟨setT (setT s.ip ip ⟨1, t1, t1, none⟩) ip ⟨2, t1, t2, none⟩,
          s.email⟩) := by
    exact @rl_allowed_incr ⟨setT s.ip ip ⟨1, t1, t1, none⟩, s.email⟩ ip t2
      ⟨1, t1, t1, none⟩
      (by rw [show (⟨setT s.ip ip ⟨1, t1, t1, none⟩, s.email⟩ : RLState).ip =
          setT s.ip ip ⟨1, t1, t1, none⟩ from rfl, hlen1]; omega)
      hem hl1 (by intro b hb; cases hb) (by simpa using hwin.1)
      (show (1:Nat) < IP_MAX_ATTEMPTS by decide) (show (1:Nat) ≤ 1 by decide)
  have hl2 : lookupT (setT (setT s.ip ip ⟨1, t1, t1, none⟩) ip
      (⟨2, t1, t2, none⟩ : SubmissionTracker)) ip = some ⟨2, t1, t2, none⟩ :=
    lookupT_setT_self _ ip _
  have hlen2 : (setT (setT s.ip ip ⟨1, t1, t1, none⟩) ip
      (⟨2, t1, t2, none⟩ : SubmissionTracker)).length = s.ip.length + 1 := by
    rw [length_setT_of_lookup_some _ ip _ _ hl1, hlen1]
  have e3 : vendorSubmissionRateLimiter ip none t3
      (⟨setT (setT s.ip ip ⟨1, t1, t1, none⟩) ip ⟨2, t1, t2, none⟩,
        s.email⟩ : RLState) =
      (RLResult.allowed,
        ⟨setT (setT (setT s.ip ip ⟨1, t1, t1, none⟩) ip ⟨2, t1, t2, none⟩) ip
          ⟨3, t1, t3, none⟩, s.email⟩) := by
    exact @rl_allowed_incr
      ⟨setT (setT s.ip ip ⟨1, t1, t1, none⟩) ip ⟨2, t1, t2, none⟩, s.email⟩
      ip t3 ⟨2, t1, t2, none⟩
      (by rw [show (⟨setT (setT s.ip ip ⟨1, t1, t1, none⟩) ip ⟨2, t1, t2, none⟩,
          s.email⟩ : RLState).ip =
          setT (setT s.ip ip ⟨1, t1, t1, none⟩) ip ⟨2, t1, t2, none⟩ from rfl,
          hlen2]; omega)
      hem hl2 (by intro b hb; cases hb) (by simpa using hwin.2)
      (show (2:Nat) < IP_MAX_ATTEMPTS by decide) (show (1:Nat) ≤ 2 by decide)
  have hl3 : lookupT (setT (setT (setT s.ip ip ⟨1, t1, t1, none⟩) ip
      ⟨2, t1, t2, none⟩) ip (⟨3, t1, t3, none⟩ : SubmissionTracker)) ip =
      some ⟨3, t1, t3, none⟩ := lookupT_setT_self _ ip _
  have hlen3 : (setT (setT (setT s.ip ip ⟨1, t1, t1, none⟩) ip
      ⟨2, t1, t2, none⟩) ip (⟨3, t1, t3, none⟩ : SubmissionTracker)).length =
      s.ip.length + 1 := by
    rw [length_setT_of_lookup_some _ ip _ _ hl2, hlen2]
  have e4 : vendorSubmissionRateLimiter ip none t4
      (⟨setT (setT (setT s.ip ip ⟨1, t1, t1, none⟩) ip ⟨2, t1, t2, none⟩) ip
        ⟨3, t1, t3, none⟩, s.email⟩ : RLState) =
      (RLResult.rejected 429 "IP_RATE_LIMIT_EXCEEDED" 60,
        ⟨setT (setT (setT (setT s.ip ip ⟨1, t1, t1, none⟩) ip ⟨2, t1, t2, none⟩)
            ip ⟨3, t1, t3, none⟩) ip ⟨3, t1, t3, some (t4 + BLOCK_DURATION)⟩,
          s.email⟩) := by
    exact @rl_limit
      ⟨setT (setT (setT s.ip ip ⟨1, t1, t1, none⟩) ip ⟨2, t1, t2, none⟩)
        ip ⟨3, t1, t3, none⟩, s.email⟩
      ip none t4 ⟨3, t1, t3, none⟩
      (by rw [show (⟨setT (setT (setT s.ip ip ⟨1, t1, t1, none⟩) ip
          ⟨2, t1, t2, none⟩) ip ⟨3, t1, t3, none⟩, s.email⟩ : RLState).ip =
          setT (setT (setT s.ip ip ⟨1, t1, t1, none⟩) ip ⟨2, t1, t2, none⟩) ip
          ⟨3, t1, t3, none⟩ from rfl, hlen3]; omega)
      hem hl3 (by intro b hb; cases hb) (by simpa using hw)
      (show IP_MAX_ATTEMPTS ≤ 3 by decide)
  rw [e1]
  refine ⟨rfl, hl1, ?_⟩
  rw [show ((RLResult.allowed,
      (⟨setT s.ip ip ⟨1, t1, t1, none⟩, s.email⟩ : RLState)) :
      RLResult × RLState).2 =
      (⟨setT s.ip ip ⟨1, t1, t1, none⟩, s.email⟩ : RLState) from rfl, e2]
  refine ⟨rfl, hl2, ?_⟩
  rw [show ((RLResult.allowed,
      (⟨setT (setT s.ip ip ⟨1, t1, t1, none⟩) ip ⟨2, t1, t2, none⟩,
        s.email⟩ : RLState)) : RLResult × RLState).2 =
      (⟨setT (setT s.ip ip ⟨1, t1, t1, none⟩) ip ⟨2, t1, t2, none⟩,
        s.email⟩ : RLState) from rfl, e3]
  refine ⟨rfl, hl3, ?_⟩
  rw [show ((RLResult.allowed,
      (⟨setT (setT (setT s.ip ip ⟨1, t1, t1, none⟩) ip ⟨2, t1, t2, none⟩) ip
        ⟨3, t1, t3, none⟩, s.email⟩ : RLState)) : RLResult × RLState).2 =
      (⟨setT (setT (setT s.ip ip ⟨1, t1, t1, none⟩) ip ⟨2, t1, t2, none⟩) ip
        ⟨3, t1, t3, none⟩, s.email⟩ : RLState) from rfl, e4]
  exact ⟨rfl, lookupT_setT_self _ ip _⟩

/-- C2 witness: the boundary behavior on a concrete key — three attempts
allowed, the fourth blocked at time 3, `blockedUntil = 3603000`. -/
theorem C2_witness :
    (vendorSubmissionRateLimiter "203.0.113.7" none 0 ⟨[], []⟩).1 =
      RLResult.allowed ∧
    lookupT (vendorSubmissionRateLimiter "203.0.113.7" none 0 ⟨[], []⟩).2.ip
      "203.0.113.7" = some ⟨1, 0, 0, none⟩ ∧
    (vendorSubmissionRateLimiter "203.0.113.7" none 1
        (vendorSubmissionRateLimiter "203.0.113.7" none 0 ⟨[], []⟩).2).1 =
      RLResult.allowed ∧
    lookupT (vendorSubmissionRateLimiter "203.0.113.7" none 1
        (vendorSubmissionRateLimiter "203.0.113.7" none 0 ⟨[], []⟩).2).2.ip
      "203.0.113.7" = some ⟨2, 0, 1, none⟩ ∧
    (vendorSubmissionRateLimiter "203.0.113.7" none 2
        (vendorSubmissionRateLimiter "203.0.113.7" none 1
          (vendorSubmissionRateLimiter "203.0.113.7" none 0 ⟨[], []⟩).2).2).1 =
      RLResult.allowed ∧
    lookupT (vendorSubmissionRateLimiter "203.0.113.7" none 2
        (vendorSubmissionRateLimiter "203.0.113.7" none 1
          (vendorSubmissionRateLimiter "203.0.113.7" none 0 ⟨[], []⟩).2).2).2.ip
      "203.0.113.7" = some ⟨3, 0, 2, none⟩ ∧
    (vendorSubmissionRateLimiter "203.0.113.7" none 3
        (vendorSubmissionRateLimiter "203.0.113.7" none 2
          (vendorSubmissionRateLimiter "203.0.113.7" none 1
            (vendorSubmissionRateLimiter "203.0.113.7" none 0 ⟨[], []⟩).2).2).2).1 =
      RLResult.rejected 429 "IP_RATE_LIMIT_EXCEEDED" 60 ∧
    lookupT (vendorSubmissionRateLimiter "203.0.113.7" none 3
        (vendorSubmissionRateLimiter "203.0.113.7" none 2
          (vendorSubmissionRateLimiter "203.0.113.7" none 1
            (vendorSubmissionRateLimiter "203.0.113.7" none 0 ⟨[], []⟩).2).2).2).2.ip
      "203.0.113.7" = some ⟨3, 0, 2, some (3 + BLOCK_DURATION)⟩ :=
  C2_thm ⟨[], []⟩ "203.0.113.7" 0 1 2 3 (by decide) (by decide) (by decide)
    (by decide) (by decide) (by decide) (by decide)

/-- C8: in every reachable middleware state, once a key's block has
passed (`blockedUntil < now`), the next attempt for that key is allowed
and starts a fresh window: the stored counter afterwards has `count = 1`
and `firstSubmission = lastSubmission = now`, the time of that attempt. -/
theorem C8_thm (s : RLState) (tR : Int) (ip : String)
    (tr : SubmissionTracker) (b now : Int)
    (hreach : Reachable s tR)
    (hl : lookupT s.ip ip = some tr)
    (hb : tr.blockedUntil = some b)
    (hpast : b < now) :
    (vendorSubmissionRateLimiter ip none now s).1 = RLResult.allowed ∧
    lookupT (vendorSubmissionRateLimiter ip none now s).2.ip ip =
      some ⟨1, now, now, none⟩ := by
  have hinvS := reachable_inv hreach
  have hmem := lookupT_mem s.ip ip tr hl
  have hE := hinvS.1.2.2 (ip, tr) hmem
  have hfw : tr.firstSubmission + IP_WINDOW ≤ b := hE.2.2.2 b hb
  have hWin : IP_WINDOW = 3600000 := rfl
  have hwexp : now - tr.firstSubmission > IP_WINDOW := by omega
  have hnd1 : KeysNodup (enforceLimit s.ip) :=
    keysNodup_enforceLimit _ hinvS.1.1
  rcases lookupT_enforceLimit s.ip ip hinvS.1.1 with hE1 | hE1
  · have hipc : ipPhaseCheck ip now (enforceLimit s.ip) =
        (none, enforceLimit s.ip) := by
      unfold ipPhaseCheck
      simp only [hE1]
    simp only [vendorSubmissionRateLimiter, enforceTrackerLimits, hipc,
      emailKeyOf]
    rw [updateTrackers_fresh (enforceLimit s.ip) (enforceLimit s.email)
      ip none now hE1]
    exact ⟨trivial, lookupT_setT_self _ ip _⟩
  · have hE1' : lookupT (enforceLimit s.ip) ip = some tr := hE1.trans hl
    have hwc : ipWindowCheck ip now (enforceLimit s.ip) tr =
        (none, delT (enforceLimit s.ip) ip) := by
      unfold ipWindowCheck
      rw [if_pos hwexp]
    have hipc : ipPhaseCheck ip now (enforceLimit s.ip) =
        (none, delT (enforceLimit s.ip) ip) := by
      unfold ipPhaseCheck
      simp only [hE1', hb, if_neg (not_lt.mpr (le_of_lt hpast))]
      exact hwc
    simp only [vendorSubmissionRateLimiter, enforceTrackerLimits, hipc,
      emailKeyOf]
    rw [updateTrackers_fresh (delT (enforceLimit s.ip) ip)
      (enforceLimit s.email) ip none now (lookupT_delT_self _ ip hnd1)]
    exact ⟨trivial, lookupT_setT_self _ ip _⟩

/-- C8 witness: four attempts at time 0 block the key until 3600000; the
attempt at 7200001 (after block expiry) is allowed with a fresh counter. -/
theorem C8_witness :
    (vendorSubmissionRateLimiter "a" none 7200001
        (vendorSubmissionRateLimiter "a" none 0
          (vendorSubmissionRateLimiter "a" none 0
            (vendorSubmissionRateLimiter "a" none 0
              (vendorSubmissionRateLimiter "a" none 0 ⟨[], []⟩).2).2).2).2).1 =
      RLResult.allowed ∧
    lookupT (vendorSubmissionRateLimiter "a" none 7200001
        (vendorSubmissionRateLimiter "a" none 0
          (vendorSubmissionRateLimiter "a" none 0
            (vendorSubmissionRateLimiter "a" none 0
              (vendorSubmissionRateLimiter "a" none 0 ⟨[], []⟩).2).2).2).2).2.ip
      "a" = some ⟨1, 7200001, 7200001, none⟩ :=
  C8_thm _ 0 "a" ⟨3, 0, 0, some 3600000⟩ 3600000 7200001
    (Reachable.step "a" none
      (Reachable.step "a" none
        (Reachable.step "a" none
          (Reachable.step "a" none (Reachable.init 0) le_rfl) le_rfl) le_rfl)
      le_rfl)
    (by decide) (by decide) (by decide)

/-- C9: maintenance is idempotent — at a fixed time `now`, running the
tracker cleanup twice leaves exactly the state one run leaves, and
running the history retention sweep twice leaves exactly the store one
run leaves. -/
theorem C9_thm (now : Int) (s : RLState) (store : List StoredSubmission) :
    cleanupTrackers now (cleanupTrackers now s) = cleanupTrackers now s ∧
    cleanupOldSubmissions now (cleanupOldSubmissions now store) =
      cleanupOldSubmissions now store := by
  constructor
  · unfold cleanupTrackers
    rw [RLState.mk.injEq]
    constructor
    · rw [List.filter_filter]
      apply List.filter_congr
      intro p _
      cases h : (windowExpiredB now IP_WINDOW p.2 && blockExpiredB now p.2) <;>
        simp [h]
    · rw [List.filter_filter]
      apply List.filter_congr
      intro p _
      cases h : windowExpiredB now EMAIL_WINDOW p.2 <;> simp [h]
  · unfold cleanupOldSubmissions
    rw [List.filter_filter]
    apply List.filter_congr
    intro p _
    cases h : decide (now - p.timestamp > RETENTION_PERIOD) <;> simp [h]

/-! ### Duplicate-detector lemmas -/

theorem findDuplicate_eq_spec (d : VendorFormDataCore) (ip fp : String)
    (now : Int) (store : List StoredSubmission) :
    findDuplicate d ip fp now store = findDuplicateSpec d ip fp now store := by
  induction store with
  | nil => rfl
  | cons s rest ih =>
    by_cases hw : now - s.timestamp > DUPLICATE_WINDOW
    · have hfalse : (decide (now - s.timestamp ≤ DUPLICATE_WINDOW) &&
          (recordReason d ip fp s).isSome) = false := by
        rw [decide_eq_false (not_le.mpr hw)]
        rfl
      unfold findDuplicate findDuplicateSpec
      rw [if_pos hw]
      simp only [List.find?, hfalse]
      rw [ih]
      rfl
    · have hdec : decide (now - s.timestamp ≤ DUPLICATE_WINDOW) = true :=
        decide_eq_true (not_lt.mp hw)
      cases hr : recordReason d ip fp s with
      | some r =>
        unfold findDuplicate findDuplicateSpec
        rw [if_neg hw]
        simp only [List.find?, hr, hdec, Option.isSome_some, Bool.and_self,
          Bool.and_true, Bool.true_and, Option.map_some']
      | none =>
        unfold findDuplicate findDuplicateSpec
        rw [if_neg hw]
        simp only [List.find?, hr, hdec, Option.isSome_none, Bool.and_false]
        rw [ih]
        rfl

theorem findDuplicate_none_of_old (d : VendorFormDataCore) (ip fp : String)
    (now : Int) (store : List StoredSubmission)
    (hold : ∀ s ∈ store, now - s.timestamp > DUPLICATE_WINDOW) :
    findDuplicate d ip fp now store = none := by
  induction store with
  | nil => rfl
  | cons s rest ih =>
    unfold findDuplicate
    rw [if_pos (hold s (List.mem_cons_self s rest))]
    exact ih (fun q hq => hold q (List.mem_cons_of_mem s hq))

/-- C4: the duplicate lookup equals its specification — scan the history
in order, skip every record strictly older than the 24-hour window, and
return the first remaining record satisfying any of the four criteria,
with the reason ranked email, phone+company, address+company, fingerprint
for that record; consequently a history whose records are all older than
24 hours never yields a duplicate, even with identical fields; and the
30-day retention sweep keeps every record not older than 30 days. -/
theorem C4_thm :
    (∀ (d : VendorFormDataCore) (ip : String) (now : Int)
      (store : List StoredSubmission),
        isDuplicateSubmission d ip now store =
          findDuplicateSpec d ip (generateFingerprint d ip) now store) ∧
    (∀ (d : VendorFormDataCore) (ip : String) (now : Int)
      (store : List StoredSubmission),
        (∀ s ∈ store, now - s.timestamp > DUPLICATE_WINDOW) →
        isDuplicateSubmission d ip now store = none) ∧
    (∀ (now : Int) (store : List StoredSubmission) (s : StoredSubmission),
        s ∈ store → now - s.timestamp ≤ RETENTION_PERIOD →
        s ∈ cleanupOldSubmissions now store) :=
  ⟨fun d ip now store => findDuplicate_eq_spec d ip _ now store,
    fun d ip now store hold => findDuplicate_none_of_old d ip _ now store hold,
    fun now store s hs hret => by
      unfold cleanupOldSubmissions
      rw [List.mem_filter]
      refine ⟨hs, ?_⟩
      rw [decide_eq_false (not_lt.mpr hret)]
      rfl⟩

/-- C4 witness: a record 25 hours old with identical fields is not
reported as a duplicate, the scan agrees with its specification on a
two-record history, and the old record survives the 30-day sweep. -/
theorem C4_witness :
    isDuplicateSubmission ⟨"a@b.com", "Acme", "123"⟩ "1.2.3.4" 90000000
        [⟨⟨"a@b.com", "Acme", "123"⟩, 0, "1.2.3.4", "SUB-1",
          generateFingerprint ⟨"a@b.com", "Acme", "123"⟩ "1.2.3.4"⟩] =
      findDuplicateSpec ⟨"a@b.com", "Acme", "123"⟩ "1.2.3.4"
        (generateFingerprint ⟨"a@b.com", "Acme", "123"⟩ "1.2.3.4") 90000000
        [⟨⟨"a@b.com", "Acme", "123"⟩, 0, "1.2.3.4", "SUB-1",
          generateFingerprint ⟨"a@b.com", "Acme", "123"⟩ "1.2.3.4"⟩] ∧
    isDuplicateSubmission ⟨"a@b.com", "Acme", "123"⟩ "1.2.3.4" 90000000
        [⟨⟨"a@b.com", "Acme", "123"⟩, 0, "1.2.3.4", "SUB-1",
          generateFingerprint ⟨"a@b.com", "Acme", "123"⟩ "1.2.3.4"⟩] = none ∧
    (⟨⟨"a@b.com", "Acme", "123"⟩, 0, "1.2.3.4", "SUB-1",
        generateFingerprint ⟨"a@b.com", "Acme", "123"⟩ "1.2.3.4"⟩ :
        StoredSubmission) ∈
      cleanupOldSubmissions 90000000
        [⟨⟨"a@b.com", "Acme", "123"⟩, 0, "1.2.3.4", "SUB-1",
          generateFingerprint ⟨"a@b.com", "Acme", "123"⟩ "1.2.3.4"⟩] :=
  ⟨C4_thm.1 ⟨"a@b.com", "Acme", "123"⟩ "1.2.3.4" 90000000 _,
    C4_thm.2.1 ⟨"a@b.com", "Acme", "123"⟩ "1.2.3.4" 90000000 _
      (by intro s hs; simp at hs; rw [hs]; decide),
    C4_thm.2.2 90000000 _ _ (List.mem_cons_self _ _) (by decide)⟩

/-- C10 helper: a `DUPLICATE_FINGERPRINT` verdict on a record means that
record failed the email test but matched the fingerprint. -/
theorem findDuplicate_fingerprint_reason (d : VendorFormDataCore)
    (ip fp : String) (now : Int) (store : List StoredSubmission)
    (s : StoredSubmission)
    (h : findDuplicate d ip fp now store = some ("DUPLICATE_FINGERPRINT", s)) :
    jsToLower s.data.email ≠ jsToLower d.email ∧ s.fingerprint = fp := by
  induction store with
  | nil => simp [findDuplicate] at h
  | cons q rest ih =>
    unfold findDuplicate at h
    by_cases hw : now - q.timestamp > DUPLICATE_WINDOW
    · rw [if_pos hw] at h
      exact ih h
    · rw [if_neg hw] at h
      cases hr : recordReason d ip fp q with
      | none =>
        simp only [hr] at h
        exact ih h
      | some r =>
        simp only [hr] at h
        simp at h
        rcases h with ⟨hr1, hq⟩
        subst hq
        subst hr1
        unfold recordReason at hr
        split_ifs at hr with h1 h2 h3 h4
        · simp at hr
        · simp at hr
        · simp at hr
        · simp at hr
          exact ⟨h1, h4⟩

/-- C10: whenever the duplicate lookup reports `DUPLICATE_FINGERPRINT`
for a record whose stored fingerprint is the derived one, that record's
email differs case-insensitively from the candidate's email, while the
two base64-encoded `email-company-phone-address` concatenations are
equal — the email criterion is tested first on each record, so the
fingerprint criterion can never fire for a record whose email matches. -/
theorem C10_thm (d : VendorFormDataCore) (ip : String) (now : Int)
    (store : List StoredSubmission) (s : StoredSubmission)
    (h : isDuplicateSubmission d ip now store =
      some ("DUPLICATE_FINGERPRINT", s))
    (hwf : s.fingerprint = generateFingerprint s.data s.ip) :
    jsToLower s.data.email ≠ jsToLower d.email ∧
      generateFingerprint s.data s.ip = generateFingerprint d ip := by
  have := findDuplicate_fingerprint_reason d ip (generateFingerprint d ip)
    now store s h
  exact ⟨this.1, hwf ▸ this.2⟩

/-- C10 witness: with the delimiter ambiguity
`"a@b.com" / "x-y"` against `"a@b.com-x" / "y"` the fingerprints collide
while the emails differ, and the lookup indeed reports
`DUPLICATE_FINGERPRINT`. -/
theorem C10_witness :
    jsToLower "a@b.com-x" ≠ jsToLower "a@b.com" ∧
      generateFingerprint ⟨"a@b.com-x", "y", "1"⟩ "7.7.7.7" =
        generateFingerprint ⟨"a@b.com", "x-y", "1"⟩ "7.7.7.7" :=
  C10_thm ⟨"a@b.com", "x-y", "1"⟩ "7.7.7.7" 1000
    [⟨⟨"a@b.com-x", "y", "1"⟩, 0, "7.7.7.7", "SUB-1",
      generateFingerprint ⟨"a@b.com-x", "y", "1"⟩ "7.7.7.7"⟩]
    ⟨⟨"a@b.com-x", "y", "1"⟩, 0, "7.7.7.7", "SUB-1",
      generateFingerprint ⟨"a@b.com-x", "y", "1"⟩ "7.7.7.7"⟩
    (by decide) (by decide)

/-! ### Eviction: counting and LRU order -/

theorem entries_eq_of_keysNodup {κ : Type} (l : TMap κ) (h : KeysNodup l)
    (a b : κ × SubmissionTracker) (ha : a ∈ l) (hb : b ∈ l)
    (hk : a.1 = b.1) : a = b := by
  induction l with
  | nil => cases ha
  | cons x rest ih =>
    obtain ⟨hx, hrest⟩ := List.nodup_cons.mp h
    rcases List.mem_cons.mp ha with ha1 | ha1 <;>
      rcases List.mem_cons.mp hb with hb1 | hb1
    · rw [ha1, hb1]
    · exfalso
      apply hx
      have hk' : x.1 = b.1 := by rw [← ha1]; exact hk
      rw [hk']
      exact List.mem_map_of_mem Prod.fst hb1
    · exfalso
      apply hx
      have hk' : x.1 = a.1 := by rw [← hb1]; exact hk.symm
      rw [hk']
      exact List.mem_map_of_mem Prod.fst ha1
    · exact ih hrest ha1 hb1

theorem sorted_sortByLast {κ : Type} (m : TMap κ) :
    List.Sorted trackerLe (sortByLast m) :=
  List.sorted_insertionSort trackerLe m

/-- When over capacity, every evicted entry is at least as old (by
`lastSubmission`) as every surviving entry: the 20%-of-capacity removal
takes the least-recently-used prefix of the stable ascending sort. -/
theorem enforce_removed_oldest {κ : Type} [DecidableEq κ] (m : TMap κ)
    (hnd : KeysNodup m) (p q : κ × SubmissionTracker)
    (hp : p ∈ enforceLimit m) (hq : q ∈ m)
    (hqgone : q.1 ∉ keysOf (enforceLimit m)) :
    q.2.lastSubmission ≤ p.2.lastSubmission := by
  by_cases hgt : m.length > MAX_TRACKER_ENTRIES
  · have hperm := sortByLast_perm m
    have hnds : KeysNodup (sortByLast m) := keysNodup_sortByLast m hnd
    have hsorted := sorted_sortByLast m
    have henf : enforceLimit m =
        deleteKeys (((sortByLast m).take evictCount).map Prod.fst) m := by
      unfold enforceLimit
      rw [if_pos hgt]
    have hqks : q.1 ∈ ((sortByLast m).take evictCount).map Prod.fst := by
      by_contra hcon
      apply hqgone
      rw [henf]
      apply mem_keysOf_of_mem
      unfold deleteKeys
      rw [List.mem_filter]
      exact ⟨hq, by simpa using hcon⟩
    rcases List.mem_map.mp hqks with ⟨q', hq't, hq'k⟩
    have hq's : q' ∈ sortByLast m := (List.take_sublist _ _).subset hq't
    have hqs : q ∈ sortByLast m := hperm.mem_iff.mpr hq
    have hq'q : q' = q :=
      entries_eq_of_keysNodup _ hnds q' q hq's hqs hq'k
    have hpf := List.mem_filter.mp (henf ▸ hp)
    have hpm : p ∈ m := hpf.1
    have hpnot : p.1 ∉ ((sortByLast m).take evictCount).map Prod.fst := by
      simpa using hpf.2
    have hps : p ∈ sortByLast m := hperm.mem_iff.mpr hpm
    have hpta : p ∈ (sortByLast m).take evictCount ++
        (sortByLast m).drop evictCount := by
      rw [List.take_append_drop]
      exact hps
    have hpdrop : p ∈ (sortByLast m).drop evictCount := by
      rcases List.mem_append.mp hpta with h | h
      · exact absurd (List.mem_map_of_mem Prod.fst h) hpnot
      · exact h
    have hsp : List.Pairwise trackerLe ((sortByLast m).take evictCount ++
        (sortByLast m).drop evictCount) := by
      rw [List.take_append_drop]
      exact hsorted
    exact (List.pairwise_append.mp hsp).2.2 q (hq'q ▸ hq't) p hpdrop
  · rw [enforceLimit_eq_self m (le_of_not_lt hgt)] at hqgone
    exact absurd (mem_keysOf_of_mem m q hq) hqgone

/-- The 10005-entry tracker used to separate the code's eviction count
from the claimed one. -/
def bigTracker : TMap Nat :=
  (List.range 10005).map (fun i => (i, ⟨1, 0, Int.ofNat i, none⟩))

theorem bigTracker_length : bigTracker.length = 10005 := by
  unfold bigTracker
  rw [List.length_map, List.length_range]

theorem bigTracker_nodup : KeysNodup bigTracker := by
  unfold KeysNodup keysOf bigTracker
  rw [List.map_map]
  have hid : (Prod.fst ∘ fun i : Nat =>
      ((i : Nat), (⟨1, 0, Int.ofNat i, none⟩ : SubmissionTracker))) = id := rfl
  rw [hid, List.map_id]
  exact List.nodup_range 10005

/-- C6 counterexample: a tracker with 10005 distinct keys.  The code's
eviction removes `Math.floor(MAX_TRACKER_ENTRIES * 0.2) = 2000` entries —
20% of the fixed capacity — leaving 8005, not the claimed ``oldest 20% of
entries (minimum 1)'' = 2001 entries, which would leave 8004. -/
theorem C6_cex :
    bigTracker.length = 10005 ∧
    (enforceLimit bigTracker).length ≠
      bigTracker.length - max 1 (bigTracker.length * 20 / 100) := by
  have hres := enforceLimit_length_of_gt bigTracker bigTracker_nodup
    (by rw [bigTracker_length]; decide)
  refine ⟨bigTracker_length, ?_⟩
  rw [hres, bigTracker_length, evictCount_eq]
  decide

/-- C6 (amended): when the tracker exceeds its capacity of
`MAX_TRACKER_ENTRIES`, eviction removes exactly
`evictCount = ⌊0.2 · MAX_TRACKER_ENTRIES⌋ = 2000` entries (20% of the
fixed capacity, not 20% of the current size), chosen as the prefix of the
stable ascending sort by `lastSubmission` — every evicted entry is at
least as old as every survivor, regardless of block state; an eviction
pass on any tracker that is at most one over capacity brings it back
within capacity; and every reachable middleware state has both trackers
at most one entry over capacity. -/
theorem C6_thm :
    (∀ (κ : Type) [DecidableEq κ] (m : TMap κ), KeysNodup m →
      m.length > MAX_TRACKER_ENTRIES →
      (enforceLimit m).length = m.length - evictCount) ∧
    (∀ (κ : Type) [DecidableEq κ] (m : TMap κ), KeysNodup m →
      ∀ p ∈ enforceLimit m, ∀ q ∈ m, q.1 ∉ keysOf (enforceLimit m) →
      q.2.lastSubmission ≤ p.2.lastSubmission) ∧
    (∀ (κ : Type) [DecidableEq κ] (m : TMap κ), KeysNodup m →
      m.length ≤ MAX_TRACKER_ENTRIES + 1 →
      (enforceLimit m).length ≤ MAX_TRACKER_ENTRIES) ∧
    (∀ (s : RLState) (t : Int), Reachable s t →
      s.ip.length ≤ MAX_TRACKER_ENTRIES + 1 ∧
      s.email.length ≤ MAX_TRACKER_ENTRIES + 1) :=
  ⟨fun κ _ m hnd hgt => enforceLimit_length_of_gt m hnd hgt,
    fun κ _ m hnd p hp q hq hgone => enforce_removed_oldest m hnd p q hp hq hgone,
    fun κ _ m hnd hle => enforceLimit_length_le m hnd hle,
    fun s t hr => ⟨(reachable_inv hr).1.2.1, (reachable_inv hr).2.2⟩⟩

/-- C6 witness: the amended theorem on the 10005-entry tracker (removal
count) and on the initial reachable state (capacity bound). -/
theorem C6_witness :
    (enforceLimit bigTracker).length = bigTracker.length - evictCount ∧
    ((⟨[], []⟩ : RLState).ip.length ≤ MAX_TRACKER_ENTRIES + 1 ∧
      (⟨[], []⟩ : RLState).email.length ≤ MAX_TRACKER_ENTRIES + 1) :=
  ⟨C6_thm.1 Nat bigTracker bigTracker_nodup
      (by rw [bigTracker_length]; decide),
    C6_thm.2.2.2 ⟨[], []⟩ 0 (Reachable.init 0)⟩

/-! ### The masking of the debug snapshot -/

/-- A list whose every element satisfies a predicate is its own takeWhile. -/
theorem takeWhile_eq_self_of_all {α : Type} (p : α → Bool) (l : List α)
    (h : ∀ u ∈ l, p u = true) : l.takeWhile p = l := by
  induction l with
  | nil => rfl
  | cons x xs ih =>
    rw [List.takeWhile_cons, h x (List.mem_cons_self x xs)]
    exact congrArg (x :: ·) (ih fun u hu => h u (List.mem_cons_of_mem x hu))

/-- Value of maskUnitsGo is independent of the fuel once the fuel exceeds
the length of the list. -/
theorem maskUnitsGo_fuel (fuel1 : Nat) :
    ∀ (fuel2 : Nat) (us : List Nat), us.length < fuel1 → us.length < fuel2 →
      maskUnitsGo fuel1 us = maskUnitsGo fuel2 us := by
  induction fuel1 with
  | zero => intro fuel2 us h1 _; exact absurd h1 (Nat.not_lt_zero _)
  | succ f1 ih =>
    intro fuel2 us h1 h2
    match fuel2, h2 with
    | f2 + 1, h2 =>
      show maskUnitsGo (f1 + 1) us = maskUnitsGo (f2 + 1) us
      simp only [maskUnitsGo]
      cases hmask : runMaskIdx (us.takeWhile (fun u => !(isLineTermUnit u))) with
      | some j => rfl
      | none =>
        cases hdrop : us.drop (us.takeWhile (fun u => !(isLineTermUnit u))).length with
        | nil => rfl
        | cons t rest2 =>
          have hlen : us.length - (us.takeWhile (fun u => !(isLineTermUnit u))).length
              = rest2.length + 1 := by
            have := congrArg List.length hdrop
            simpa using this
          have hrest : rest2.length < us.length := by omega
          exact congrArg (fun l => us.takeWhile (fun u => !(isLineTermUnit u)) ++ t :: l)
            (ih f2 rest2 (by omega) (by omega))

/-- When the whole unit list is free of line terminators and its last `@`
sits at index at least 3, the regex matches at position 0, group 1 takes
the first three units, the greedy middle pushes group 2 to the last `@`,
and the match runs to the end: the result keeps the first three units,
inserts the three stars and keeps the tail from the last `@`. -/
theorem maskUnits_applicable (us : List Nat) (j : Nat)
    (hnt : ∀ u ∈ us, isLineTermUnit u = false)
    (hj : lastAtUnit us = some j) (h3 : 3 ≤ j) :
    maskUnits us = us.take 3 ++ starsUnits ++ us.drop j := by
  have htw : us.takeWhile (fun u => !(isLineTermUnit u)) = us :=
    takeWhile_eq_self_of_all _ us (fun u hu => by rw [hnt u hu]; rfl)
  have hmask : runMaskIdx us = some j := by
    unfold runMaskIdx; rw [hj]; exact if_pos h3
  show maskUnitsGo (us.length + 1) us = _
  simp only [maskUnitsGo, htw, hmask, List.drop_length, List.append_nil]

/-- When the whole unit list is free of line terminators and has no `@`
at index at least 3, the regex does not match anywhere and the string
comes back unchanged. -/
theorem maskUnits_raw (us : List Nat)
    (hnt : ∀ u ∈ us, isLineTermUnit u = false)
    (hmask : runMaskIdx us = none) :
    maskUnits us = us := by
  have htw : us.takeWhile (fun u => !(isLineTermUnit u)) = us :=
    takeWhile_eq_self_of_all _ us (fun u hu => by rw [hnt u hu]; rfl)
  show maskUnitsGo (us.length + 1) us = us
  simp only [maskUnitsGo, htw, hmask, List.drop_length]

/-- A takeWhile across an append stops exactly at a terminator heading the
second part when everything in the first part passes. -/
theorem takeWhile_append_term (a : List Nat) (t : Nat) (b : List Nat)
    (hnt : ∀ u ∈ a, isLineTermUnit u = false)
    (ht : isLineTermUnit t = true) :
    (a ++ t :: b).takeWhile (fun u => !(isLineTermUnit u)) = a := by
  induction a with
  | nil => simp [List.takeWhile_cons, ht]
  | cons x xs ih =>
    rw [List.cons_append, List.takeWhile_cons]
    have hx : isLineTermUnit x = false := hnt x (List.mem_cons_self x xs)
    rw [hx]
    exact congrArg (x :: ·) (ih (fun u hu => hnt u (List.mem_cons_of_mem x hu)))

/-- Cross-run behaviour of the masking: a leading line-terminator-free
run that itself admits no match is emitted VERBATIM together with the
terminator that ends it, and the regex search continues on the remainder.
This is the leak behind emails such as "ab\nsecretx@y.com": the part
before the terminator and part of what follows survive unmasked. -/
theorem maskUnits_skip_run (a : List Nat) (t : Nat) (b : List Nat)
    (hnt : ∀ u ∈ a, isLineTermUnit u = false)
    (hno : runMaskIdx a = none)
    (ht : isLineTermUnit t = true) :
    maskUnits (a ++ t :: b) = a ++ t :: maskUnits b := by
  have htw : (a ++ t :: b).takeWhile (fun u => !(isLineTermUnit u)) = a :=
    takeWhile_append_term a t b hnt ht
  have hdrop : (a ++ t :: b).drop a.length = t :: b := List.drop_left a (t :: b)
  show maskUnitsGo ((a ++ t :: b).length + 1) (a ++ t :: b) = _
  simp only [maskUnitsGo, htw, hno, hdrop]
  refine congrArg (fun l => a ++ t :: l) ?h
  have hlen : b.length < (a ++ t :: b).length := by
    simp [List.length_append]; omega
  exact maskUnitsGo_fuel _ (b.length + 1) b hlen (Nat.lt_succ_self _)

/-- The email masking regex matches (at position 0, the only place a
match can start for such a string) exactly when the whole string is free
of line terminators and its last `@` sits at UTF-16 index at least 3. -/
def maskApplicable (s : String) (j : Nat) : Prop :=
  (∀ u ∈ jsUnits s, isLineTermUnit u = false) ∧
    lastAtUnit (jsUnits s) = some j ∧ 3 ≤ j

theorem maskEmail_eq_of_applicable (s : String) (j : Nat)
    (h : maskApplicable s j) :
    maskEmail s = (jsUnits s).take 3 ++ starsUnits ++ (jsUnits s).drop j :=
  maskUnits_applicable (jsUnits s) j h.1 h.2.1 h.2.2

/-- Mask-equivalence of two email-tracker entries: both emails are
terminator-free and maskable, they agree on the three visible leading
units and on the suffix from the last `@` on, and on the reported
timestamp. -/
def maskEquiv (p q : String × SubmissionTracker) : Prop :=
  (∃ j1 j2, maskApplicable p.1 j1 ∧ maskApplicable q.1 j2 ∧
    (jsUnits p.1).take 3 = (jsUnits q.1).take 3 ∧
    (jsUnits p.1).drop j1 = (jsUnits q.1).drop j2) ∧
  p.2.firstSubmission = q.2.firstSubmission

theorem map_maskEmail_congr (l1 l2 : TMap String)
    (h : List.Forall₂ maskEquiv l1 l2) :
    l1.map (fun p => (maskEmail p.1, p.2.firstSubmission)) =
      l2.map (fun p => (maskEmail p.1, p.2.firstSubmission)) := by
  induction h with
  | nil => rfl
  | cons hpq hrest ih =>
    rw [List.map_cons, List.map_cons, ih]
    rcases hpq with ⟨⟨j1, j2, hap, haq, htake, hdrop⟩, hfirst⟩
    rw [maskEmail_eq_of_applicable _ j1 hap,
      maskEmail_eq_of_applicable _ j2 haq, htake, hdrop, hfirst]

/-- C7 counterexample: `getTrackerStatus` returns the raw tracked email
verbatim when the masking regex does not match — here "ab@c.co", whose
local part has fewer than three characters, appears unredacted in the
snapshot (the second conjunct spells the units out: they are exactly the
code units of the raw address). -/
theorem C7_cex :
    (getTrackerStatus 0 ⟨[], [("ab@c.co", ⟨1, 0, 0, none⟩)]⟩).emailEntries =
      [(jsUnits "ab@c.co", 0)] ∧
    jsUnits "ab@c.co" = [97, 98, 64, 99, 46, 99, 111] := by
  decide

/-- C7 (amended): the snapshot is a pure function of the state (the
embedding returns it without touching the maps).  For an email free of
line terminators whose last `@` sits at UTF-16 index at least 3, the
regex matches at position 0 and the snapshot reveals only the first
three units and the suffix from the last `@` (conjunct 1); two states
whose email entries agree on exactly that visible data produce identical
`emailEntries`, whatever the hidden middles are (conjunct 2).  A
terminator-free email the regex does not match is returned RAW
(conjunct 3), so "never the raw tracked email string" fails.  And
because `.` never matches a line terminator, a leading terminator-free
run with no match passes through verbatim and the search resumes after
the terminator (conjunct 4), so for an address containing a line
terminator the units before it also leak. -/
theorem C7_thm :
    (∀ (s : String) (j : Nat), maskApplicable s j →
      maskEmail s = (jsUnits s).take 3 ++ starsUnits ++ (jsUnits s).drop j) ∧
    (∀ (now : Int) (s1 s2 : RLState),
      List.Forall₂ maskEquiv s1.email s2.email →
      (getTrackerStatus now s1).emailEntries =
        (getTrackerStatus now s2).emailEntries) ∧
    (∀ s : String, (∀ u ∈ jsUnits s, isLineTermUnit u = false) →
      runMaskIdx (jsUnits s) = none → maskEmail s = jsUnits s) ∧
    (∀ (a : List Nat) (t : Nat) (b : List Nat),
      (∀ u ∈ a, isLineTermUnit u = false) → runMaskIdx a = none →
      isLineTermUnit t = true →
      maskUnits (a ++ t :: b) = a ++ t :: maskUnits b) := by
  refine ⟨maskEmail_eq_of_applicable, ?noninter, ?raw, maskUnits_skip_run⟩
  · intro now s1 s2 h
    show s1.email.map (fun p => (maskEmail p.1, p.2.firstSubmission)) =
      s2.email.map (fun p => (maskEmail p.1, p.2.firstSubmission))
    exact map_maskEmail_congr s1.email s2.email h
  · intro s hnt hno
    exact maskUnits_raw (jsUnits s) hnt hno

/-- C7 witness: two tracked emails with different hidden middles but the
same visible leading three units and `@`-suffix produce identical
snapshots, and a terminator-free run with no match ("ab" before a line
feed) passes through the masking verbatim. -/
theorem C7_witness :
    (getTrackerStatus 0
        ⟨[], [("abcSECRET@x.com", ⟨1, 5, 5, none⟩)]⟩).emailEntries =
      (getTrackerStatus 0
        ⟨[], [("abcOTHER@x.com", ⟨1, 5, 5, none⟩)]⟩).emailEntries ∧
    maskUnits (jsUnits "ab" ++ 10 :: jsUnits "secretx@y.com") =
      jsUnits "ab" ++ 10 :: maskUnits (jsUnits "secretx@y.com") :=
  ⟨C7_thm.2.1 0 ⟨[], [("abcSECRET@x.com", ⟨1, 5, 5, none⟩)]⟩
      ⟨[], [("abcOTHER@x.com", ⟨1, 5, 5, none⟩)]⟩
      (List.Forall₂.cons
        ⟨⟨9, 8, ⟨by decide, by decide, by decide⟩,
          ⟨by decide, by decide, by decide⟩, by decide, by decide⟩, rfl⟩
        List.Forall₂.nil),
    C7_thm.2.2.2 (jsUnits "ab") 10 (jsUnits "secretx@y.com")
      (by decide) (by decide) (by decide)⟩

end VendorReg
